import Mathlib

/-!
Vector2D (OOP3200-F2020-Lesson3c/Vector2D.h)

A shallow embedding of the `Vector2D<T>` class template and a verification of its
numeric contract. The class is embedded twice.

* `Vector2D`: scalars are exact rationals `ℚ`, the casts between `float` and `double` are
  the identity. It carries the properties that depend on no law of arithmetic: which
  relation an operator applies, which member an index designates, which value an operator
  returns, which branch a function takes, and that no divisor is zero.
* `Binary32.Vector2D`: the template at `T = float`. The members are IEEE 754 binary32 data
  (`FP`: a NaN, an infinity or a finite value). Every `float` operation rounds its exact
  result to binary32, every `double` operation to binary64, `static_cast<double>` of a
  `float` is exact and `static_cast<float>` rounds, all to nearest with ties to even, as in
  the source. It carries the properties that rounding, overflow or a NaN can break.

Conventions of both.

* A member function that mutates `*this` takes the vector and returns the new vector
  (together with the returned value where the C++ function returns one).
* `T& operator[]` returns a designator of the member the reference is bound to;
  reading and writing through the reference are `load` and `store`.
* `throw std::out_of_range(..)` is the `Except.error` result.
* `Mathf.h` is not among the sources. `Mathf::Sqrt` is a parameter `Sqrt` of the functions
  that call it; `Binary32.Mathf` models `Sqrt`, `Clamp01`, `Min` and `Max` from the
  specification, `Sqrt` as the correctly rounded root, to evaluate the functions at
  concrete inputs.
* For the absence of zero divisors, the functions that divide have a second form whose
  divisions are checked (`checked_div`), returning `none` when a divisor is zero.
* The sign of a zero is not represented in `FP`; it is observable only through a division
  by zero, which none of the properties below depends on.
-/

/-- The exception type thrown by `operator[]`. -/
inductive Exception where
  | out_of_range (what : String)
  deriving DecidableEq, Repr

/-- The class `Vector2D<T>`: its two private members. -/
structure Vector2D where
  m_x : ℚ
  m_y : ℚ
  deriving DecidableEq, Repr

/-- The member a `T&` returned by `operator[]` is bound to. -/
inductive Component where
  | m_x
  | m_y
  deriving DecidableEq, Repr

namespace Vector2D

/-- `T GetX() const` -/
def GetX (v : Vector2D) : ℚ := v.m_x

/-- `T GetY() const` -/
def GetY (v : Vector2D) : ℚ := v.m_y

/-- `void Set(T x, T y)`: assigns both members. -/
def Set (_v : Vector2D) (x y : ℚ) : Vector2D := { m_x := x, m_y := y }

/-- `Vector2D(T x = 0.0, T y = 0.0)`, with both arguments given. -/
def ctor (x y : ℚ) : Vector2D := { m_x := x, m_y := y }

/-- `Vector2D()`: the constructor with its default arguments. -/
def ctor_default : Vector2D := ctor 0 0

/-- `Vector2D(const Vector2D& rhs)`: the copy constructor. -/
def ctor_copy (rhs : Vector2D) : Vector2D := Set ctor_default rhs.GetX rhs.GetY

/-- `Vector2D operator+(const Vector2D& rhs) const` -/
def operator_add (self rhs : Vector2D) : Vector2D :=
  let vector := ctor_default
  ctor_copy (vector.Set (self.GetX + rhs.GetX) (self.GetY + rhs.GetY))

/-- `Vector2D operator-(const Vector2D& rhs) const` -/
def operator_sub (self rhs : Vector2D) : Vector2D :=
  let vector := ctor_default
  ctor_copy (vector.Set (self.GetX - rhs.GetX) (self.GetY - rhs.GetY))

/-- `Vector2D operator*(const Vector2D& rhs) const`: component-wise product. -/
def operator_mul (self rhs : Vector2D) : Vector2D :=
  let vector := ctor_default
  ctor_copy (vector.Set (self.GetX * rhs.GetX) (self.GetY * rhs.GetY))

/-- `Vector2D operator*(T scale) const` -/
def operator_mul_scalar (self : Vector2D) (scale : ℚ) : Vector2D :=
  ctor (self.GetX * scale) (self.GetY * scale)

/-- `Vector2D operator/(const Vector2D& rhs) const`: component-wise quotient. -/
def operator_div (self rhs : Vector2D) : Vector2D :=
  let vector := ctor_default
  ctor_copy (vector.Set (self.GetX / rhs.GetX) (self.GetY / rhs.GetY))

/-- `Vector2D operator/(T scale) const` -/
def operator_div_scalar (self : Vector2D) (scale : ℚ) : Vector2D :=
  ctor (self.GetX / scale) (self.GetY / scale)

/-- `bool operator==(const Vector2D& rhs) const` -/
def operator_eq (self rhs : Vector2D) : Bool :=
  decide (self.GetX = rhs.GetX) && decide (self.GetY = rhs.GetY)

/-- `bool operator!=(const Vector2D& rhs) const` -/
def operator_ne (self rhs : Vector2D) : Bool :=
  decide (self.GetX ≠ rhs.GetX) && decide (self.GetY ≠ rhs.GetY)

/-- `bool operator>(const Vector2D& rhs) const` -/
def operator_gt (self rhs : Vector2D) : Bool :=
  decide (self.GetX > rhs.GetX) && decide (self.GetY > rhs.GetY)

/-- `bool operator<(const Vector2D& rhs) const` -/
def operator_lt (self rhs : Vector2D) : Bool :=
  decide (self.GetX < rhs.GetX) && decide (self.GetY > rhs.GetY)

/-- `T& operator[](int component)`: the member the returned reference is bound to, or the
thrown `std::out_of_range`. -/
def operator_index (_self : Vector2D) (component : Int) : Except Exception Component :=
  if component = 0 ∨ component = 1 then
    .ok (if component = 0 then Component.m_x else Component.m_y)
  else
    .error (.out_of_range "index out of range: can only be 0 to return x or 1 to return y")

/-- Reading through a reference returned by `operator[]`. -/
def load (self : Vector2D) : Component → ℚ
  | .m_x => self.m_x
  | .m_y => self.m_y

/-- Writing through a reference returned by `operator[]`: the new value of the vector. -/
def store (self : Vector2D) (c : Component) (s : ℚ) : Vector2D :=
  match c with
  | .m_x => { self with m_x := s }
  | .m_y => { self with m_y := s }

/-- The expression `v[component]` used as an rvalue. -/
def index_read (self : Vector2D) (component : Int) : Except Exception ℚ :=
  (self.operator_index component).map self.load

/-- The statement `v[component] = s;`: the outcome and the value of `v` afterwards. When
`operator[]` throws, no assignment takes place. -/
def index_write (self : Vector2D) (component : Int) (s : ℚ) :
    Except Exception Unit × Vector2D :=
  match self.operator_index component with
  | .ok c => (.ok (), self.store c s)
  | .error e => (.error e, self)

/-- `Vector2D& operator++()`: the new value of `*this` and the value seen through the
returned reference. -/
def operator_pre_inc (self : Vector2D) : Vector2D × Vector2D :=
  let self1 := self.Set (self.GetX + 1) (self.GetY + 1)
  (self1, self1)

/-- `Vector2D operator++(int)`: the new value of `*this` and the returned copy. -/
def operator_post_inc (self : Vector2D) : Vector2D × Vector2D :=
  let vector := ctor_copy self
  let self1 := (operator_pre_inc self).1
  (self1, ctor_copy vector)

/-- `Vector2D& operator--()`: the new value of `*this` and the value seen through the
returned reference. -/
def operator_pre_dec (self : Vector2D) : Vector2D × Vector2D :=
  let self1 := self.Set (self.GetX - 1) (self.GetY - 1)
  (self1, self1)

/-- `Vector2D operator--(int)`: the new value of `*this` and the returned copy. -/
def operator_post_dec (self : Vector2D) : Vector2D × Vector2D :=
  let vector := ctor_copy self
  let self1 := (operator_pre_dec self).1
  (self1, ctor_copy vector)

/-- `Vector2D& operator+=(const Vector2D& rhs)`: the new value of `*this` (which is also
what the returned reference shows). -/
def operator_add_assign (self rhs : Vector2D) : Vector2D :=
  self.Set (self.GetX + rhs.GetX) (self.GetY + rhs.GetY)

/-- `Vector2D& operator-=(const Vector2D& rhs)` -/
def operator_sub_assign (self rhs : Vector2D) : Vector2D :=
  self.Set (self.GetX - rhs.GetX) (self.GetY - rhs.GetY)

/-- `Vector2D& operator*=(const Vector2D& rhs)` -/
def operator_mul_assign (self rhs : Vector2D) : Vector2D :=
  self.Set (self.GetX * rhs.GetX) (self.GetY * rhs.GetY)

/-- `Vector2D& operator/=(const Vector2D& rhs)` -/
def operator_div_assign (self rhs : Vector2D) : Vector2D :=
  self.Set (self.GetX / rhs.GetX) (self.GetY / rhs.GetY)

/-- `T GetMagnitude() const`; `Sqrt` stands for `Mathf::Sqrt`. -/
def GetMagnitude (Sqrt : ℚ → ℚ) (self : Vector2D) : ℚ :=
  Sqrt (self.GetX * self.GetX + self.GetY * self.GetY)

/-- `T GetSqrMagnitude() const` -/
def GetSqrMagnitude (self : Vector2D) : ℚ :=
  self.GetX * self.GetX + self.GetY * self.GetY

/-- `void SetScale(const Vector2D& scale)`: the new value of `*this`. -/
def SetScale (self scale : Vector2D) : Vector2D :=
  self.operator_mul_assign scale

/-- `static Vector2D Zero()` -/
def Zero : Vector2D := ctor 0 0

/-- `static Vector2D One()` -/
def One : Vector2D := ctor 1 1

/-- `static Vector2D Up()` -/
def Up : Vector2D := ctor 0 1

/-- `static Vector2D Down()` -/
def Down : Vector2D := ctor 0 (-1)

/-- `static Vector2D Right()` -/
def Right : Vector2D := ctor 1 0

/-- `static Vector2D Left()` -/
def Left : Vector2D := ctor (-1) 0

/-- `static Vector2D MoveTowards(const Vector2D& current, const Vector2D& target,
T max_distance_delta)` -/
def MoveTowards (Sqrt : ℚ → ℚ) (current target : Vector2D) (max_distance_delta : ℚ) :
    Vector2D :=
  let vector := target.operator_sub current
  let magnitude := vector.GetMagnitude Sqrt
  if magnitude ≤ max_distance_delta ∨ magnitude = 0 then
    ctor_copy target
  else
    current.operator_add
      ((vector.operator_div_scalar magnitude).operator_mul_scalar max_distance_delta)

/-- `static Vector2D Scale(const Vector2D& a, const Vector2D& b)` -/
def Scale (a b : Vector2D) : Vector2D :=
  ctor (a.GetX * b.GetX) (a.GetY * b.GetY)

/-- `static T Dot(const Vector2D& lhs, const Vector2D& rhs)` -/
def Dot (lhs rhs : Vector2D) : ℚ :=
  lhs.GetX * rhs.GetX + lhs.GetY * rhs.GetY

/-- `static Vector2D Reflect(const Vector2D& in_direction, const Vector2D& in_normal)` -/
def Reflect (in_direction in_normal : Vector2D) : Vector2D :=
  (in_normal.operator_mul_scalar (-2 * Dot in_normal in_direction)).operator_add in_direction

/-- `static T SqrMagnitude(const Vector2D& a)` -/
def SqrMagnitude (a : Vector2D) : ℚ :=
  a.GetX * a.GetX + a.GetY * a.GetY

end Vector2D

/-! ## Binary floating point -/

/-- A datum of an IEEE 754 binary format: a NaN, an infinity or a finite value. The sign
of a zero is not represented. -/
inductive FP where
  | nan : FP
  | inf (negative : Bool) : FP
  | fin (value : ℚ) : FP
  deriving DecidableEq, Repr

namespace FP

/-- The position of the leading bit of `n`, searched with `fuel` halvings. -/
def log2Fuel : ℕ → ℕ → ℕ
  | 0, _ => 0
  | fuel + 1, n => if 2 ≤ n then log2Fuel fuel (n / 2) + 1 else 0

/-- The position of the leading bit of `n`: `⌊log₂ n⌋` for `n > 0`. -/
def log2 (n : ℕ) : ℕ := log2Fuel n n

/-- The binary exponent `⌊log₂ (n / d)⌋` of a positive fraction. -/
def ilog2 (n d : ℕ) : ℤ :=
  let e : ℤ := (log2 n : ℤ) - (log2 d : ℤ)
  if 0 ≤ e then (if d * 2 ^ e.toNat ≤ n then e else e - 1)
  else (if d ≤ n * 2 ^ (-e).toNat then e else e - 1)

/-- The integer nearest to `N / D`, a tie going to the even one. -/
def roundNE (N D : ℕ) : ℕ :=
  if 2 * (N % D) < D then N / D
  else if D < 2 * (N % D) then N / D + 1
  else if (N / D) % 2 = 0 then N / D else N / D + 1

/-- The magnitude `n / d` rounded to `prec` significant bits, or to the multiple of
`2 ^ (emin - prec + 1)` where the exponent would fall below `emin`; to nearest, ties to
even. -/
def roundMag (prec : ℕ) (emin : ℤ) (n d : ℕ) : ℚ :=
  let x : ℤ := max (ilog2 n d) emin - ((prec : ℤ) - 1)
  if 0 ≤ x then ((roundNE n (d * 2 ^ x.toNat) * 2 ^ x.toNat : ℕ) : ℚ)
  else ((roundNE (n * 2 ^ (-x).toNat) d : ℕ) : ℚ) / ((2 ^ (-x).toNat : ℕ) : ℚ)

/-- Rounding of a rational to the binary format with `prec` significant bits and exponent
range `emin .. emax`, to nearest with ties to even; gradual underflow below `2 ^ emin`,
overflow to an infinity. -/
def round (prec : ℕ) (emin emax : ℤ) (q : ℚ) : FP :=
  if q = 0 then fin 0
  else if ((2 ^ (emax + 1).toNat : ℕ) : ℚ) ≤ roundMag prec emin q.num.natAbs q.den then
    inf (decide (q < 0))
  else
    fin (if q < 0 then -roundMag prec emin q.num.natAbs q.den
      else roundMag prec emin q.num.natAbs q.den)

/-- Rounding to binary32 (`float`). -/
def round32 (q : ℚ) : FP := round 24 (-126) 127 q

/-- Rounding to binary64 (`double`). -/
def round64 (q : ℚ) : FP := round 53 (-1022) 1023 q

/-- Unary minus. -/
def neg : FP → FP
  | nan => nan
  | inf negative => inf (!negative)
  | fin x => fin (-x)

/-- Addition, the exact sum rounded by `r`. -/
def add (r : ℚ → FP) : FP → FP → FP
  | nan, _ => nan
  | _, nan => nan
  | inf s, inf t => if s = t then inf s else nan
  | inf s, fin _ => inf s
  | fin _, inf t => inf t
  | fin x, fin y => r (x + y)

/-- Subtraction. -/
def sub (r : ℚ → FP) (a b : FP) : FP := add r a (neg b)

/-- Multiplication, the exact product rounded by `r`. -/
def mul (r : ℚ → FP) : FP → FP → FP
  | nan, _ => nan
  | _, nan => nan
  | inf s, inf t => inf (xor s t)
  | inf s, fin y => if y = 0 then nan else inf (xor s (decide (y < 0)))
  | fin x, inf t => if x = 0 then nan else inf (xor (decide (x < 0)) t)
  | fin x, fin y => r (x * y)

/-- Division, the exact quotient rounded by `r`. A zero divisor counts as `+0`. -/
def div (r : ℚ → FP) : FP → FP → FP
  | nan, _ => nan
  | _, nan => nan
  | inf _, inf _ => nan
  | inf s, fin y => inf (xor s (decide (y < 0)))
  | fin _, inf _ => fin 0
  | fin x, fin y =>
    if y = 0 then (if x = 0 then nan else inf (decide (x < 0))) else r (x / y)

/-- The comparison `a < b`; false when an operand is a NaN. -/
def lt : FP → FP → Bool
  | fin x, fin y => decide (x < y)
  | inf s, inf t => s && !t
  | inf s, fin _ => s
  | fin _, inf t => !t
  | _, _ => false

/-- The comparison `a <= b`; false when an operand is a NaN. -/
def le : FP → FP → Bool
  | fin x, fin y => decide (x ≤ y)
  | inf s, inf t => s || !t
  | inf s, fin _ => s
  | fin _, inf t => !t
  | _, _ => false

/-- The comparison `a == b`; false when an operand is a NaN. -/
def eq : FP → FP → Bool
  | fin x, fin y => decide (x = y)
  | inf s, inf t => decide (s = t)
  | _, _ => false

/-- The comparison `a > b`. -/
def gt (a b : FP) : Bool := lt b a

/-- The comparison `a >= b`. -/
def ge (a b : FP) : Bool := le b a

/-- The comparison `a != b`. -/
def ne (a b : FP) : Bool := !eq a b

/-- `static_cast<float>` of a `double`. -/
def toFloat : FP → FP
  | fin x => round32 x
  | a => a

/-- The datum is a value of binary32: a NaN, an infinity, or a finite value that rounding
to binary32 leaves unchanged. -/
def IsFloat : FP → Prop
  | fin x => round32 x = fin x
  | _ => True

/-- The integer square root, decided bit by bit from bit `k - 1` down. -/
def isqrtFuel : ℕ → ℕ → ℕ → ℕ
  | 0, _, acc => acc
  | k + 1, n, acc =>
    if (acc + 2 ^ k) * (acc + 2 ^ k) ≤ n then isqrtFuel k n (acc + 2 ^ k)
    else isqrtFuel k n acc

/-- The integer square root `⌊√n⌋`. -/
def isqrt (n : ℕ) : ℕ := isqrtFuel (log2 n / 2 + 1) n 0

end FP

namespace Binary32

namespace Mathf

/-- Modelled from the spec: `Mathf::Sqrt` of the absent header `Mathf.h`, the square root,
here correctly rounded to binary32: the root is taken to 160 fractional bits and, when that
is inexact, a half unit in the last of them is added before rounding. -/
def Sqrt : FP → FP
  | FP.nan => FP.nan
  | FP.inf negative => if negative then FP.nan else FP.inf false
  | FP.fin q =>
    if q < 0 then FP.nan
    else
      let s := FP.isqrt (q.num.natAbs * 4 ^ 160 / q.den)
      if s * s * q.den = q.num.natAbs * 4 ^ 160 then FP.round32 ((s : ℚ) / ((2 ^ 160 : ℕ) : ℚ))
      else FP.round32 (((2 * s + 1 : ℕ) : ℚ) / ((2 ^ 161 : ℕ) : ℚ))

/-- Modelled from the spec: `Mathf::Clamp01` of the absent header `Mathf.h`, the clamp of a
scalar to the interval [0,1] ("linear interpolation with `t` clamped to [0,1]"). -/
def Clamp01 (value : FP) : FP :=
  if FP.lt value (FP.fin 0) then FP.fin 0
  else if FP.gt value (FP.fin 1) then FP.fin 1
  else value

/-- Modelled from the spec: `Mathf::Min` of the absent header `Mathf.h`, the minimum of two
scalars ("component-wise minimum/maximum"). -/
def Min (a b : FP) : FP := if FP.lt a b then a else b

/-- Modelled from the spec: `Mathf::Max` of the absent header `Mathf.h`, the maximum of two
scalars ("component-wise minimum/maximum"). -/
def Max (a b : FP) : FP := if FP.gt a b then a else b

end Mathf

/-- The class `Vector2D<float>`: its two private `float` members. -/
structure Vector2D where
  m_x : FP
  m_y : FP
  deriving DecidableEq, Repr

namespace Vector2D

/-- `T GetX() const` -/
def GetX (v : Vector2D) : FP := v.m_x

/-- `T GetY() const` -/
def GetY (v : Vector2D) : FP := v.m_y

/-- `void Set(T x, T y)`: assigns both members. -/
def Set (_v : Vector2D) (x y : FP) : Vector2D := { m_x := x, m_y := y }

/-- `Vector2D(T x = 0.0, T y = 0.0)`, with both arguments given. -/
def ctor (x y : FP) : Vector2D := { m_x := x, m_y := y }

/-- `Vector2D()`: the constructor with its default arguments. -/
def ctor_default : Vector2D := ctor (FP.fin 0) (FP.fin 0)

/-- `Vector2D(const Vector2D& rhs)`: the copy constructor. -/
def ctor_copy (rhs : Vector2D) : Vector2D := Set ctor_default rhs.GetX rhs.GetY

/-- `Vector2D operator+(const Vector2D& rhs) const` -/
def operator_add (self rhs : Vector2D) : Vector2D :=
  let vector := ctor_default
  ctor_copy (vector.Set (FP.add FP.round32 self.GetX rhs.GetX)
    (FP.add FP.round32 self.GetY rhs.GetY))

/-- `Vector2D operator-(const Vector2D& rhs) const` -/
def operator_sub (self rhs : Vector2D) : Vector2D :=
  let vector := ctor_default
  ctor_copy (vector.Set (FP.sub FP.round32 self.GetX rhs.GetX)
    (FP.sub FP.round32 self.GetY rhs.GetY))

/-- `Vector2D operator*(T scale) const` -/
def operator_mul_scalar (self : Vector2D) (scale : FP) : Vector2D :=
  ctor (FP.mul FP.round32 self.GetX scale) (FP.mul FP.round32 self.GetY scale)

/-- `Vector2D operator/(T scale) const` -/
def operator_div_scalar (self : Vector2D) (scale : FP) : Vector2D :=
  ctor (FP.div FP.round32 self.GetX scale) (FP.div FP.round32 self.GetY scale)

/-- `bool operator==(const Vector2D& rhs) const` -/
def operator_eq (self rhs : Vector2D) : Bool :=
  FP.eq self.GetX rhs.GetX && FP.eq self.GetY rhs.GetY

/-- `bool operator<=(const Vector2D& rhs) const` -/
def operator_le (self rhs : Vector2D) : Bool :=
  FP.le self.GetX rhs.GetX && FP.le self.GetY rhs.GetY

/-- `T GetMagnitude() const`; `Sqrt` stands for `Mathf::Sqrt`. The sum of squares is formed
in `double` and narrowed to `float`. -/
def GetMagnitude (Sqrt : FP → FP) (self : Vector2D) : FP :=
  Sqrt (FP.toFloat (FP.add FP.round64 (FP.mul FP.round64 self.GetX self.GetX)
    (FP.mul FP.round64 self.GetY self.GetY)))

/-- `T GetSqrMagnitude() const` -/
def GetSqrMagnitude (self : Vector2D) : FP :=
  FP.toFloat (FP.add FP.round64 (FP.mul FP.round64 self.GetX self.GetX)
    (FP.mul FP.round64 self.GetY self.GetY))

/-- `static Vector2D Zero()` -/
def Zero : Vector2D := ctor (FP.fin 0) (FP.fin 0)

/-- `static Vector2D Lerp(const Vector2D& a, const Vector2D& b, T t)` -/
def Lerp (a b : Vector2D) (t : FP) : Vector2D :=
  let t := Mathf.Clamp01 t
  ctor (FP.add FP.round32 a.GetX (FP.mul FP.round32 (FP.sub FP.round32 b.GetX a.GetX) t))
    (FP.add FP.round32 a.GetY (FP.mul FP.round32 (FP.sub FP.round32 b.GetY a.GetY) t))

/-- `static Vector2D LerpUnclamped(const Vector2D& a, const Vector2D& b, T t)` -/
def LerpUnclamped (a b : Vector2D) (t : FP) : Vector2D :=
  ctor (FP.add FP.round32 a.GetX (FP.mul FP.round32 (FP.sub FP.round32 b.GetX a.GetX) t))
    (FP.add FP.round32 a.GetY (FP.mul FP.round32 (FP.sub FP.round32 b.GetY a.GetY) t))

/-- `static Vector2D MoveTowards(const Vector2D& current, const Vector2D& target,
T max_distance_delta)` -/
def MoveTowards (Sqrt : FP → FP) (current target : Vector2D) (max_distance_delta : FP) :
    Vector2D :=
  let vector := target.operator_sub current
  let magnitude := vector.GetMagnitude Sqrt
  if FP.le magnitude max_distance_delta || FP.eq magnitude (FP.fin 0) then
    ctor_copy target
  else
    current.operator_add
      ((vector.operator_div_scalar magnitude).operator_mul_scalar max_distance_delta)

/-- `static Vector2D Perpendicular(const Vector2D& in_direction)` -/
def Perpendicular (in_direction : Vector2D) : Vector2D :=
  ctor (FP.neg in_direction.GetY) in_direction.GetX

/-- `static T Dot(const Vector2D& lhs, const Vector2D& rhs)` -/
def Dot (lhs rhs : Vector2D) : FP :=
  FP.toFloat (FP.add FP.round64 (FP.mul FP.round64 lhs.GetX rhs.GetX)
    (FP.mul FP.round64 lhs.GetY rhs.GetY))

/-- `static T Distance(const Vector2D& a, const Vector2D& b)`: the differences and the sum
of their squares are formed in `double`, the sum is narrowed to `float`. -/
def Distance (Sqrt : FP → FP) (a b : Vector2D) : FP :=
  let delta_x := FP.sub FP.round64 b.GetX a.GetX
  let delta_y := FP.sub FP.round64 b.GetY a.GetY
  Sqrt (FP.toFloat (FP.add FP.round64 (FP.mul FP.round64 delta_x delta_x)
    (FP.mul FP.round64 delta_y delta_y)))

/-- `static Vector2D Min(const Vector2D& lhs, const Vector2D& rhs)` -/
def Min (lhs rhs : Vector2D) : Vector2D :=
  ctor (Mathf.Min lhs.GetX rhs.GetX) (Mathf.Min lhs.GetY rhs.GetY)

/-- `static Vector2D Max(const Vector2D& lhs, const Vector2D& rhs)` -/
def Max (lhs rhs : Vector2D) : Vector2D :=
  ctor (Mathf.Max lhs.GetX rhs.GetX) (Mathf.Max lhs.GetY rhs.GetY)

end Vector2D

end Binary32


/-! ## Helper lemmas -/

namespace Vector2D

@[simp] theorem ctor_copy_eq (v : Vector2D) : ctor_copy v = v := rfl

end Vector2D

/-! ## Comparison operators -/

/-- Claim C1, at the input where it fails: `(0,0) < (1,1)` holds component-wise, and the
sibling `operator>` reports `(1,1) > (0,0)`, yet `operator<` returns `false`; it also
returns `true` on `(0,1)`, `(1,0)`, where the y-components are in the opposite order. -/
theorem C1_operator_lt_failing_input :
    Vector2D.operator_lt ⟨0, 0⟩ ⟨1, 1⟩ = false
      ∧ ((0 : ℚ) < 1 ∧ (0 : ℚ) < 1)
      ∧ Vector2D.operator_gt ⟨1, 1⟩ ⟨0, 0⟩ = true
      ∧ Vector2D.operator_lt ⟨0, 1⟩ ⟨1, 0⟩ = true := by
  decide

/-- Claim C2: `operator!=` is `true` exactly when both components differ, so on two vectors
that differ in exactly one component both `a != b` and `a == b` are `false`. -/
theorem C2_operator_ne_both_components (a b : Vector2D) :
    (Vector2D.operator_ne a b = true ↔ a.GetX ≠ b.GetX ∧ a.GetY ≠ b.GetY)
      ∧ ((a.GetX ≠ b.GetX ∧ a.GetY = b.GetY) ∨ (a.GetX = b.GetX ∧ a.GetY ≠ b.GetY) →
          Vector2D.operator_ne a b = false ∧ Vector2D.operator_eq a b = false) := by
  refine ⟨by simp [Vector2D.operator_ne], ?_⟩
  rintro (⟨hx, hy⟩ | ⟨hx, hy⟩) <;> simp [Vector2D.operator_ne, Vector2D.operator_eq, hx, hy]

/-- The instance `a = (0,0)`, `b = (1,0)` of C2: the vectors differ in x only. -/
theorem C2_operator_ne_both_components_witness :
    ((0 : ℚ) ≠ 1 ∧ (0 : ℚ) = 0)
      ∧ Vector2D.operator_ne ⟨0, 0⟩ ⟨1, 0⟩ = false
      ∧ Vector2D.operator_eq ⟨0, 0⟩ ⟨1, 0⟩ = false :=
  ⟨by decide, (C2_operator_ne_both_components ⟨0, 0⟩ ⟨1, 0⟩).2 (Or.inl (by decide))⟩

/-! ## Indexed access -/

/-- Claim C3: `v[0]` is the x-component, `v[1]` the y-component (the returned reference is
bound to `m_x`, respectively `m_y`), and `v[i]` throws `std::out_of_range` exactly when
`i` is neither 0 nor 1, negative indices included. -/
theorem C3_operator_index (v : Vector2D) (i : Int) :
    (v.operator_index 0 = .ok Component.m_x ∧ v.index_read 0 = .ok v.GetX)
      ∧ (v.operator_index 1 = .ok Component.m_y ∧ v.index_read 1 = .ok v.GetY)
      ∧ ((∃ what, v.index_read i = .error (Exception.out_of_range what)) ↔ i ≠ 0 ∧ i ≠ 1)
      ∧ ((∃ what, v.operator_index i = .error (Exception.out_of_range what)) ↔ i ≠ 0 ∧ i ≠ 1)
      ∧ (i < 0 → ∃ what, v.index_read i = .error (Exception.out_of_range what)) := by
  have key : (∃ what, v.operator_index i = .error (Exception.out_of_range what))
      ↔ i ≠ 0 ∧ i ≠ 1 := by
    unfold Vector2D.operator_index
    by_cases h : i = 0 ∨ i = 1
    · simp only [h, if_true]
      constructor
      · rintro ⟨_, hw⟩; cases hw
      · rintro ⟨h0, h1⟩; rcases h with h | h <;> contradiction
    · simp only [h, if_false]
      push_neg at h
      exact ⟨fun _ => h, fun _ => ⟨_, rfl⟩⟩
  have key2 : (∃ what, v.index_read i = .error (Exception.out_of_range what))
      ↔ i ≠ 0 ∧ i ≠ 1 := by
    rw [← key]
    unfold Vector2D.index_read
    cases hoi : v.operator_index i with
    | ok c => simp [Except.map]
    | error e => simp [Except.map]
  refine ⟨⟨rfl, rfl⟩, ⟨rfl, rfl⟩, key2, key, fun hneg => key2.2 ⟨by omega, by omega⟩⟩

/-- The instance `v = (3,4)`, `i = -1` of C3: a negative index throws. -/
theorem C3_operator_index_witness :
    ((-1 : Int) < 0)
      ∧ ∃ what, (Vector2D.mk 3 4).index_read (-1) = .error (Exception.out_of_range what) :=
  ⟨by decide, (C3_operator_index ⟨3, 4⟩ (-1)).2.2.2.2 (by decide)⟩

/-- Claim C4: `v[0] = s` sets x to `s` and keeps y, `v[1] = s` sets y to `s` and keeps x,
and when the index is neither 0 nor 1 the access throws and `v` keeps its value. -/
theorem C4_index_write_frame (v : Vector2D) (s : ℚ) (i : Int) :
    (v.index_write 0 s = (.ok (), ⟨s, v.GetY⟩))
      ∧ (v.index_write 1 s = (.ok (), ⟨v.GetX, s⟩))
      ∧ (i ≠ 0 ∧ i ≠ 1 →
          (v.index_write i s).2 = v ∧ ∃ what, (v.index_write i s).1 = .error (.out_of_range what)) := by
  refine ⟨rfl, rfl, ?_⟩
  rintro ⟨h0, h1⟩
  have h : ¬ (i = 0 ∨ i = 1) := by push_neg; exact ⟨h0, h1⟩
  simp [Vector2D.index_write, Vector2D.operator_index, h]

/-- The instance `v = (3,4)`, `s = 9`, `i = 2` of C4. -/
theorem C4_index_write_frame_witness :
    ((2 : Int) ≠ 0 ∧ (2 : Int) ≠ 1)
      ∧ ((Vector2D.mk 3 4).index_write 2 9).2 = Vector2D.mk 3 4
      ∧ ∃ what, ((Vector2D.mk 3 4).index_write 2 9).1 = .error (.out_of_range what) :=
  ⟨by decide, (C4_index_write_frame ⟨3, 4⟩ 9 2).2.2 (by decide)⟩

/-! ## Increment and decrement -/

/-- Claim C5: `++v` leaves `v = (x+1, y+1)` and returns that value, `--v` leaves
`v = (x-1, y-1)` and returns it; `v++` and `v--` leave `v` in the same state as the
corresponding form before the operand and return the value `(x, y)` held before. -/
theorem C5_increment_decrement (v : Vector2D) :
    v.operator_pre_inc = (⟨v.GetX + 1, v.GetY + 1⟩, ⟨v.GetX + 1, v.GetY + 1⟩)
      ∧ v.operator_pre_dec = (⟨v.GetX - 1, v.GetY - 1⟩, ⟨v.GetX - 1, v.GetY - 1⟩)
      ∧ v.operator_post_inc = (⟨v.GetX + 1, v.GetY + 1⟩, ⟨v.GetX, v.GetY⟩)
      ∧ v.operator_post_dec = (⟨v.GetX - 1, v.GetY - 1⟩, ⟨v.GetX, v.GetY⟩) :=
  ⟨rfl, rfl, rfl, rfl⟩

/-! ## Geometry helpers that call `Mathf::Sqrt` -/

/-- Claim C9: with `d` the magnitude `MoveTowards` computes for `target - current`, the
result is `target` when `d <= maxDelta` or `d = 0`, and `current + (target - current) / d *
maxDelta` otherwise; `MoveTowards((0,0), (10,0), 3) = (3,0)` and
`MoveTowards((0,0), (1,0), 5) = (1,0)` when `Sqrt` is the root at 100 and at 1. -/
theorem C9_MoveTowards (Sqrt : ℚ → ℚ) (current target : Vector2D) (maxDelta : ℚ) :
    (Vector2D.GetMagnitude Sqrt (target.operator_sub current)
        = Sqrt ((target.GetX - current.GetX) * (target.GetX - current.GetX)
            + (target.GetY - current.GetY) * (target.GetY - current.GetY)))
      ∧ (Vector2D.GetMagnitude Sqrt (target.operator_sub current) ≤ maxDelta
          ∨ Vector2D.GetMagnitude Sqrt (target.operator_sub current) = 0 →
          Vector2D.MoveTowards Sqrt current target maxDelta = target)
      ∧ (¬ (Vector2D.GetMagnitude Sqrt (target.operator_sub current) ≤ maxDelta
          ∨ Vector2D.GetMagnitude Sqrt (target.operator_sub current) = 0) →
          Vector2D.MoveTowards Sqrt current target maxDelta
            = ⟨current.GetX + (target.GetX - current.GetX)
                  / Vector2D.GetMagnitude Sqrt (target.operator_sub current) * maxDelta,
               current.GetY + (target.GetY - current.GetY)
                  / Vector2D.GetMagnitude Sqrt (target.operator_sub current) * maxDelta⟩)
      ∧ (Sqrt 100 = 10 → Vector2D.MoveTowards Sqrt ⟨0, 0⟩ ⟨10, 0⟩ 3 = ⟨3, 0⟩)
      ∧ (Sqrt 1 = 1 → Vector2D.MoveTowards Sqrt ⟨0, 0⟩ ⟨1, 0⟩ 5 = ⟨1, 0⟩) := by
  refine ⟨rfl, ?_, ?_, ?_, ?_⟩
  · intro h
    simp only [Vector2D.MoveTowards, if_pos h, Vector2D.ctor_copy_eq]
  · intro h
    simp only [Vector2D.MoveTowards, if_neg h]
    rfl
  · intro h
    have hm : Vector2D.GetMagnitude Sqrt ((Vector2D.mk 10 0).operator_sub ⟨0, 0⟩) = 10 := by
      simp only [Vector2D.GetMagnitude, Vector2D.operator_sub, Vector2D.ctor_copy,
        Vector2D.ctor_default, Vector2D.Set, Vector2D.GetX, Vector2D.GetY, Vector2D.ctor]
      norm_num [h]
    simp only [Vector2D.MoveTowards, hm]
    norm_num [Vector2D.operator_add, Vector2D.operator_sub, Vector2D.operator_mul_scalar,
      Vector2D.operator_div_scalar, Vector2D.ctor_copy, Vector2D.ctor_default, Vector2D.Set,
      Vector2D.GetX, Vector2D.GetY, Vector2D.ctor]
  · intro h
    have hm : Vector2D.GetMagnitude Sqrt ((Vector2D.mk 1 0).operator_sub ⟨0, 0⟩) = 1 := by
      simp only [Vector2D.GetMagnitude, Vector2D.operator_sub, Vector2D.ctor_copy,
        Vector2D.ctor_default, Vector2D.Set, Vector2D.GetX, Vector2D.GetY, Vector2D.ctor]
      norm_num [h]
    simp only [Vector2D.MoveTowards, hm]
    norm_num [Vector2D.ctor_copy, Vector2D.ctor_default, Vector2D.Set,
      Vector2D.GetX, Vector2D.GetY, Vector2D.ctor]

/-- The instance of C9 with `Rat.sqrt` for `Sqrt`: the root of 100 is 10, and the step
from `(0,0)` towards `(10,0)` by 3 ends at `(3,0)`. -/
theorem C9_MoveTowards_witness :
    Rat.sqrt 100 = 10 ∧ Vector2D.MoveTowards Rat.sqrt ⟨0, 0⟩ ⟨10, 0⟩ 3 = ⟨3, 0⟩ :=
  have h : Rat.sqrt 100 = 10 := by
    rw [show (100 : ℚ) = 10 * 10 by norm_num, Rat.sqrt_eq]
    norm_num
  ⟨h, (C9_MoveTowards Rat.sqrt ⟨0, 0⟩ ⟨10, 0⟩ 3).2.2.2.1 h⟩

/-! ## Reflect -/

/-- Claim C13: `Reflect(dir, normal)` is `dir - normal * (2 * Dot(normal, dir))`, with
`Dot(normal, dir) = normal.x * dir.x + normal.y * dir.y`. -/
theorem C13_Reflect (dir normal : Vector2D) :
    Vector2D.Reflect dir normal
        = dir.operator_sub (normal.operator_mul_scalar (2 * Vector2D.Dot normal dir))
      ∧ Vector2D.Dot normal dir = normal.GetX * dir.GetX + normal.GetY * dir.GetY
      ∧ Vector2D.Reflect dir normal
        = ⟨dir.GetX - 2 * (normal.GetX * dir.GetX + normal.GetY * dir.GetY) * normal.GetX,
           dir.GetY - 2 * (normal.GetX * dir.GetX + normal.GetY * dir.GetY) * normal.GetY⟩ := by
  refine ⟨?_, rfl, ?_⟩
  · simp only [Vector2D.Reflect, Vector2D.operator_add, Vector2D.operator_sub,
      Vector2D.operator_mul_scalar, Vector2D.ctor, Vector2D.ctor_copy, Vector2D.ctor_default,
      Vector2D.Set, Vector2D.GetX, Vector2D.GetY, Vector2D.mk.injEq]
    constructor <;> ring
  · simp only [Vector2D.Reflect, Vector2D.Dot, Vector2D.operator_add,
      Vector2D.operator_mul_scalar, Vector2D.ctor, Vector2D.ctor_copy, Vector2D.ctor_default,
      Vector2D.Set, Vector2D.GetX, Vector2D.GetY, Vector2D.mk.injEq]
    constructor <;> ring

/-! ## Compound assignment -/

/-- Claim C17: each of `a += b`, `a -= b`, `a *= b`, `a /= b` leaves in `a` (and shows
through the returned reference) the value of `a + b`, `a - b`, the component-wise `a * b`
and the component-wise `a / b` for the original `a`; `a.SetScale(s)` leaves `Scale(a, s)`
in `a`. -/
theorem C17_compound_assignment (a b s : Vector2D) :
    a.operator_add_assign b = a.operator_add b
      ∧ a.operator_sub_assign b = a.operator_sub b
      ∧ a.operator_mul_assign b = a.operator_mul b
      ∧ a.operator_div_assign b = a.operator_div b
      ∧ a.SetScale s = Vector2D.Scale a s
      ∧ a.operator_add_assign b = ⟨a.GetX + b.GetX, a.GetY + b.GetY⟩
      ∧ a.operator_sub_assign b = ⟨a.GetX - b.GetX, a.GetY - b.GetY⟩
      ∧ a.operator_mul_assign b = ⟨a.GetX * b.GetX, a.GetY * b.GetY⟩
      ∧ a.operator_div_assign b = ⟨a.GetX / b.GetX, a.GetY / b.GetY⟩ :=
  ⟨rfl, rfl, rfl, rfl, rfl, rfl, rfl, rfl, rfl⟩

/-! ## Absence of zero divisors -/

namespace Vector2D

end Vector2D

namespace FP

theorem round_zero (prec : ℕ) (emin emax : ℤ) : round prec emin emax 0 = fin 0 := by
  simp [round]

theorem round32_zero : round32 0 = fin 0 := round_zero _ _ _

theorem round64_zero : round64 0 = fin 0 := round_zero _ _ _

theorem roundMag_nonneg (prec : ℕ) (emin : ℤ) (n d : ℕ) : 0 ≤ roundMag prec emin n d := by
  unfold roundMag
  dsimp only
  split_ifs
  · exact Nat.cast_nonneg _
  · exact div_nonneg (Nat.cast_nonneg _) (Nat.cast_nonneg _)

theorem round_neg (prec : ℕ) (emin emax : ℤ) (q : ℚ) :
    round prec emin emax (-q) = neg (round prec emin emax q) := by
  by_cases hq : q = 0
  · subst hq
    simp [round, neg]
  · have hnq : -q ≠ 0 := neg_ne_zero.mpr hq
    simp only [round, if_neg hq, if_neg hnq, Rat.neg_num, Int.natAbs_neg, Rat.neg_den]
    generalize roundMag prec emin q.num.natAbs q.den = v
    rcases lt_or_gt_of_ne hq with hneg | hpos
    · have h1 : ¬ (-q < 0) := by linarith
      by_cases hov : ((2 ^ (emax + 1).toNat : ℕ) : ℚ) ≤ v
      · rw [if_pos hov, if_pos hov]
        simp [hneg, h1, neg]
      · rw [if_neg hov, if_neg hov]
        simp [hneg, h1, neg]
    · have h1 : -q < 0 := by linarith
      have h2 : ¬ (q < 0) := by linarith
      by_cases hov : ((2 ^ (emax + 1).toNat : ℕ) : ℚ) ≤ v
      · rw [if_pos hov, if_pos hov]
        simp [h2, h1, neg]
      · rw [if_neg hov, if_neg hov]
        simp [h2, h1, neg]

theorem round_ne_nan (prec : ℕ) (emin emax : ℤ) (q : ℚ) : round prec emin emax q ≠ nan := by
  unfold round
  split_ifs <;> simp

/-- Rounding keeps the sign: a non-negative rational rounds to `+inf` or to a non-negative
finite value. -/
theorem round_of_nonneg (prec : ℕ) (emin emax : ℤ) (q : ℚ) (hq : 0 ≤ q) :
    round prec emin emax q = inf false ∨ ∃ v : ℚ, 0 ≤ v ∧ round prec emin emax q = fin v := by
  have hn : ¬ q < 0 := not_lt.mpr hq
  unfold round
  split_ifs with h0 hov
  · exact Or.inr ⟨0, le_rfl, rfl⟩
  · left; simp [hn]
  · exact Or.inr ⟨_, roundMag_nonneg _ _ _ _, rfl⟩

theorem sub_swap (r : ℚ → FP) (hr : ∀ q, r (-q) = neg (r q)) (a b : FP) :
    sub r a b = neg (sub r b a) := by
  cases a with
  | nan => cases b <;> simp [sub, add, neg]
  | inf s =>
    cases b with
    | nan => simp [sub, add, neg]
    | inf t => cases s <;> cases t <;> simp [sub, add, neg]
    | fin y => simp [sub, add, neg]
  | fin x =>
    cases b with
    | nan => simp [sub, add, neg]
    | inf t => simp [sub, add, neg]
    | fin y =>
      show r (x + -y) = neg (r (y + -x))
      rw [← hr]
      congr 1
      ring

theorem mul_neg_neg (r : ℚ → FP) (a : FP) : mul r (neg a) (neg a) = mul r a a := by
  cases a with
  | nan => rfl
  | inf s => cases s <;> simp [mul, neg]
  | fin x => simp [mul, neg]

theorem add_swap (r : ℚ → FP) (a b : FP) : add r a b = add r b a := by
  cases a with
  | nan => cases b <;> simp [add]
  | inf s =>
    cases b with
    | nan => simp [add]
    | inf t => cases s <;> cases t <;> simp [add]
    | fin y => simp [add]
  | fin x =>
    cases b with
    | nan => simp [add]
    | inf t => simp [add]
    | fin y =>
      show r (x + y) = r (y + x)
      rw [add_comm]

end FP

/-! ## Binary floating point: no overflow in `double` on products of `float` values -/

namespace FP

theorem log2Fuel_le (fuel n : ℕ) (hn : 1 ≤ n) : 2 ^ log2Fuel fuel n ≤ n := by
  induction fuel generalizing n with
  | zero => simpa [log2Fuel] using hn
  | succ k ih =>
    unfold log2Fuel
    split_ifs with h2
    · have h1 : 1 ≤ n / 2 := by omega
      have := ih (n / 2) h1
      rw [pow_succ]
      omega
    · simpa using hn

theorem log2Fuel_lt (fuel n : ℕ) (hn : n ≤ fuel) : n < 2 ^ (log2Fuel fuel n + 1) := by
  induction fuel generalizing n with
  | zero =>
    have : n = 0 := by omega
    subst this
    simp [log2Fuel]
  | succ k ih =>
    unfold log2Fuel
    split_ifs with h2
    · have h1 : n / 2 ≤ k := by omega
      have := ih (n / 2) h1
      rw [pow_succ]
      omega
    · simp only [zero_add, pow_one]
      omega

theorem log2_le (n : ℕ) (hn : 1 ≤ n) : 2 ^ log2 n ≤ n := log2Fuel_le n n hn

theorem lt_log2 (n : ℕ) : n < 2 ^ (log2 n + 1) := log2Fuel_lt n n le_rfl

/-- Where the binary exponent computed for `n / d` is not negative, `2` to that exponent
is at most `n / d`. -/
theorem ilog2_spec (n d : ℕ) (hn : 1 ≤ n) (h0 : 0 ≤ ilog2 n d) :
    d * 2 ^ (ilog2 n d).toNat ≤ n := by
  unfold ilog2 at h0 ⊢
  dsimp only at h0 ⊢
  by_cases he : (0 : ℤ) ≤ (log2 n : ℤ) - (log2 d : ℤ)
  · rw [if_pos he] at h0 ⊢
    by_cases ht : d * 2 ^ ((log2 n : ℤ) - (log2 d : ℤ)).toNat ≤ n
    · rw [if_pos ht]
      exact ht
    · rw [if_neg ht] at h0 ⊢
      have hle : log2 d + 1 ≤ log2 n := by omega
      have hto : ((log2 n : ℤ) - (log2 d : ℤ) - 1).toNat = log2 n - log2 d - 1 := by omega
      rw [hto]
      have hd : d < 2 ^ (log2 d + 1) := lt_log2 d
      have hn2 : 2 ^ log2 n ≤ n := log2_le n hn
      have hsplit : 2 ^ log2 n = 2 ^ (log2 d + 1) * 2 ^ (log2 n - log2 d - 1) := by
        rw [← pow_add]
        congr 1
        omega
      have hpos : 0 < 2 ^ (log2 n - log2 d - 1) := by positivity
      calc d * 2 ^ (log2 n - log2 d - 1)
          ≤ 2 ^ (log2 d + 1) * 2 ^ (log2 n - log2 d - 1) :=
            Nat.mul_le_mul_right _ hd.le
        _ = 2 ^ log2 n := hsplit.symm
        _ ≤ n := hn2
  · rw [if_neg he] at h0
    exfalso
    split_ifs at h0 <;> omega

theorem roundNE_mul_le (N D : ℕ) : roundNE N D * D ≤ N + D := by
  have h1 : roundNE N D ≤ N / D + 1 := by
    unfold roundNE
    split_ifs <;> omega
  calc roundNE N D * D ≤ (N / D + 1) * D := Nat.mul_le_mul_right _ h1
    _ = N / D * D + D := by ring
    _ ≤ N + D := Nat.add_le_add_right (Nat.div_mul_le_self N D) D

/-- Rounding at most doubles a magnitude, up to one unit. -/
theorem roundMag_le (prec : ℕ) (emin : ℤ) (n d : ℕ) (hn : 1 ≤ n) (hd : 1 ≤ d)
    (hemin : emin ≤ 0) (hprec : 1 ≤ prec) :
    roundMag prec emin n d ≤ 2 * ((n : ℚ) / (d : ℚ)) + 1 := by
  have hdq : (0 : ℚ) < (d : ℚ) := by exact_mod_cast hd
  have hnd : (0 : ℚ) ≤ (n : ℚ) / (d : ℚ) := div_nonneg (Nat.cast_nonneg _) hdq.le
  unfold roundMag
  dsimp only
  by_cases hx : (0 : ℤ) ≤ max (ilog2 n d) emin - ((prec : ℤ) - 1)
  · rw [if_pos hx]
    generalize hX : (max (ilog2 n d) emin - ((prec : ℤ) - 1)).toNat = X
    -- the unit `2 ^ X` is at most `max (n / d) 1`
    have hunit : d * 2 ^ X ≤ n ∨ X = 0 := by
      by_cases hi : emin ≤ ilog2 n d
      · have hmax : max (ilog2 n d) emin = ilog2 n d := max_eq_left hi
        rw [hmax] at hx hX
        have h0 : 0 ≤ ilog2 n d := by omega
        have hspec := ilog2_spec n d hn h0
        left
        have hXle : X ≤ (ilog2 n d).toNat := by omega
        calc d * 2 ^ X ≤ d * 2 ^ (ilog2 n d).toNat :=
              Nat.mul_le_mul_left _ (Nat.pow_le_pow_right (by norm_num) hXle)
          _ ≤ n := hspec
      · right
        have hmax : max (ilog2 n d) emin = emin := max_eq_right (by omega)
        rw [hmax] at hX
        omega
    have hmain := roundNE_mul_le n (d * 2 ^ X)
    have hcast : ((roundNE n (d * 2 ^ X) * 2 ^ X : ℕ) : ℚ) * (d : ℚ)
        ≤ (n : ℚ) + (d : ℚ) * (2 : ℚ) ^ X := by
      have : roundNE n (d * 2 ^ X) * 2 ^ X * d ≤ n + d * 2 ^ X := by
        calc roundNE n (d * 2 ^ X) * 2 ^ X * d = roundNE n (d * 2 ^ X) * (d * 2 ^ X) := by ring
          _ ≤ n + d * 2 ^ X := hmain
      exact_mod_cast this
    have hbound : (d : ℚ) * (2 : ℚ) ^ X ≤ (n : ℚ) + (d : ℚ) := by
      rcases hunit with h | h
      · have : ((d * 2 ^ X : ℕ) : ℚ) ≤ (n : ℚ) := by exact_mod_cast h
        push_cast at this
        linarith
      · subst h
        simp only [pow_zero, mul_one]
        have : (0 : ℚ) ≤ (n : ℚ) := Nat.cast_nonneg _
        linarith
    rw [← sub_nonneg]
    have key : ((roundNE n (d * 2 ^ X) * 2 ^ X : ℕ) : ℚ)
        ≤ (2 * (n : ℚ) + (d : ℚ)) / (d : ℚ) := by
      rw [le_div_iff₀ hdq]
      linarith
    have e : (2 * (n : ℚ) + (d : ℚ)) / (d : ℚ) = 2 * ((n : ℚ) / (d : ℚ)) + 1 := by
      field_simp
    rw [sub_nonneg, ← e]
    exact key
  · rw [if_neg hx]
    generalize (-(max (ilog2 n d) emin - ((prec : ℤ) - 1))).toNat = Y
    have hmain := roundNE_mul_le (n * 2 ^ Y) d
    have hY : (0 : ℚ) < ((2 ^ Y : ℕ) : ℚ) := by positivity
    have hcast : ((roundNE (n * 2 ^ Y) d : ℕ) : ℚ) * (d : ℚ)
        ≤ (n : ℚ) * ((2 ^ Y : ℕ) : ℚ) + (d : ℚ) := by
      exact_mod_cast hmain
    rw [div_le_iff₀ hY]
    have h1 : (1 : ℚ) ≤ ((2 ^ Y : ℕ) : ℚ) := by
      have : 1 ≤ 2 ^ Y := Nat.one_le_two_pow
      exact_mod_cast this
    have key : ((roundNE (n * 2 ^ Y) d : ℕ) : ℚ)
        ≤ ((n : ℚ) * ((2 ^ Y : ℕ) : ℚ) + (d : ℚ)) / (d : ℚ) := by
      rw [le_div_iff₀ hdq]
      exact hcast
    have e : ((n : ℚ) * ((2 ^ Y : ℕ) : ℚ) + (d : ℚ)) / (d : ℚ)
        = (n : ℚ) / (d : ℚ) * ((2 ^ Y : ℕ) : ℚ) + 1 := by
      field_simp
    rw [e] at key
    nlinarith [mul_nonneg hnd hY.le]

end FP

namespace FP

theorem natAbs_div_den (q : ℚ) : ((q.num.natAbs : ℕ) : ℚ) / ((q.den : ℕ) : ℚ) = |q| := by
  have hden : (0 : ℚ) < (q.den : ℚ) := by exact_mod_cast q.den_pos
  have h1 : ((q.num.natAbs : ℕ) : ℚ) = |(q.num : ℚ)| := by
    rw [Nat.cast_natAbs, Int.cast_abs]
  rw [h1]
  nth_rewrite 3 [← Rat.num_div_den q]
  rw [abs_div, abs_of_pos hden]

/-- A finite value that rounding leaves unchanged is below the overflow threshold. -/
theorem abs_lt_of_round_eq (prec : ℕ) (emin emax : ℤ) (x : ℚ)
    (h : round prec emin emax x = fin x) : |x| < ((2 ^ (emax + 1).toNat : ℕ) : ℚ) := by
  by_cases hx : x = 0
  · subst hx
    simp
  · unfold round at h
    rw [if_neg hx] at h
    by_cases hov : ((2 ^ (emax + 1).toNat : ℕ) : ℚ) ≤ roundMag prec emin x.num.natAbs x.den
    · rw [if_pos hov] at h
      cases h
    · rw [if_neg hov] at h
      have hv := roundMag_nonneg prec emin x.num.natAbs x.den
      have hlt := not_le.mp hov
      have hval : (if x < 0 then -roundMag prec emin x.num.natAbs x.den
          else roundMag prec emin x.num.natAbs x.den) = x := by
        injection h
      by_cases hneg : x < 0
      · rw [if_pos hneg] at hval
        rw [abs_of_neg hneg, ← hval, neg_neg]
        exact hlt
      · rw [if_neg hneg] at hval
        rw [abs_of_nonneg (not_lt.mp hneg), ← hval]
        exact hlt

/-- A rational well below the overflow threshold rounds to a finite value. -/
theorem round_finite (prec : ℕ) (emin emax : ℤ) (q : ℚ) (hemin : emin ≤ 0) (hprec : 1 ≤ prec)
    (h : 2 * |q| + 1 < ((2 ^ (emax + 1).toNat : ℕ) : ℚ)) :
    ∃ p : ℚ, round prec emin emax q = fin p := by
  by_cases hq : q = 0
  · exact ⟨0, by rw [hq, round_zero]⟩
  · have hn : 1 ≤ q.num.natAbs := by
      have : q.num ≠ 0 := Rat.num_ne_zero.mpr hq
      omega
    have hd : 1 ≤ q.den := q.den_pos
    have hb := roundMag_le prec emin q.num.natAbs q.den hn hd hemin hprec
    rw [natAbs_div_den] at hb
    have hov : ¬ ((2 ^ (emax + 1).toNat : ℕ) : ℚ) ≤ roundMag prec emin q.num.natAbs q.den := by
      rw [not_le]
      exact lt_of_le_of_lt hb h
    unfold round
    rw [if_neg hq, if_neg hov]
    exact ⟨_, rfl⟩

/-- The product of two finite binary32 values is finite in binary64. -/
theorem round64_mul_finite (x y : ℚ) (hx : round32 x = fin x) (hy : round32 y = fin y) :
    ∃ p : ℚ, round64 (x * y) = fin p := by
  have hx1 := abs_lt_of_round_eq 24 (-126) 127 x hx
  have hy1 := abs_lt_of_round_eq 24 (-126) 127 y hy
  apply round_finite 53 (-1022) 1023 (x * y) (by norm_num) (by norm_num)
  have e1 : ((127 : ℤ) + 1).toNat = 128 := by decide
  have e2 : ((1023 : ℤ) + 1).toNat = 1024 := by decide
  rw [e1] at hx1 hy1
  rw [e2, abs_mul]
  have hxy : |x| * |y| < ((2 ^ 128 : ℕ) : ℚ) * ((2 ^ 128 : ℕ) : ℚ) :=
    mul_lt_mul'' hx1 hy1 (abs_nonneg x) (abs_nonneg y)
  have hbig : 2 * (((2 ^ 128 : ℕ) : ℚ) * ((2 ^ 128 : ℕ) : ℚ)) + 1 ≤ ((2 ^ 1024 : ℕ) : ℚ) := by
    norm_num
  linarith

end FP

namespace FP

theorem le_self (a : FP) (h : a ≠ nan) : le a a = true := by
  cases a with
  | nan => exact absurd rfl h
  | inf s => cases s <;> rfl
  | fin x => simp [le]

theorem le_of_lt (a b : FP) (h : lt a b = true) : le a b = true := by
  cases a with
  | nan => simp [lt] at h
  | inf s =>
    cases b with
    | nan => simp [lt] at h
    | inf t => cases s <;> cases t <;> simp_all [lt, le]
    | fin y => simpa [lt, le] using h
  | fin x =>
    cases b with
    | nan => simp [lt] at h
    | inf t => simpa [lt, le] using h
    | fin y =>
      simp only [lt, decide_eq_true_eq] at h
      simp only [le, decide_eq_true_eq]
      exact h.le

theorem le_of_not_lt (a b : FP) (ha : a ≠ nan) (hb : b ≠ nan) (h : lt a b = false) :
    le b a = true := by
  cases a with
  | nan => exact absurd rfl ha
  | inf s =>
    cases b with
    | nan => exact absurd rfl hb
    | inf t => cases s <;> cases t <;> simp_all [lt, le]
    | fin y => cases s <;> simp_all [lt, le]
  | fin x =>
    cases b with
    | nan => exact absurd rfl hb
    | inf t => cases t <;> simp_all [lt, le]
    | fin y =>
      simp only [lt, decide_eq_false_iff_not, not_lt] at h
      simp only [le, decide_eq_true_eq]
      exact h

theorem eq_of_le_of_le (a b : FP) (hab : le a b = true) (hba : le b a = true) :
    eq a b = true := by
  cases a with
  | nan => simp [le] at hab
  | inf s =>
    cases b with
    | nan => simp [le] at hab
    | inf t => cases s <;> cases t <;> simp_all [le, eq]
    | fin y => cases s <;> simp_all [le]
  | fin x =>
    cases b with
    | nan => simp [le] at hab
    | inf t => cases t <;> simp_all [le]
    | fin y =>
      simp only [le, decide_eq_true_eq] at hab hba
      simp only [eq, decide_eq_true_eq]
      exact le_antisymm hab hba

theorem le_trans_fp (a b c : FP) (hab : le a b = true) (hbc : le b c = true) :
    le a c = true := by
  cases a with
  | nan => simp [le] at hab
  | inf s =>
    cases b with
    | nan => simp [le] at hab
    | inf t =>
      cases c with
      | nan => simp [le] at hbc
      | inf u => cases s <;> cases t <;> cases u <;> simp_all [le]
      | fin z => cases s <;> cases t <;> simp_all [le]
    | fin y =>
      cases c with
      | nan => simp [le] at hbc
      | inf u => cases s <;> cases u <;> simp_all [le]
      | fin z => cases s <;> simp_all [le]
  | fin x =>
    cases b with
    | nan => simp [le] at hab
    | inf t =>
      cases c with
      | nan => simp [le] at hbc
      | inf u => cases t <;> cases u <;> simp_all [le]
      | fin z => cases t <;> simp_all [le]
    | fin y =>
      cases c with
      | nan => simp [le] at hbc
      | inf u => cases u <;> simp_all [le]
      | fin z =>
        simp only [le, decide_eq_true_eq] at hab hbc ⊢
        exact le_trans hab hbc

end FP

/-! ## Algebraic identities (binary32) -/

/-- Claim C6 as stated fails on vectors with a NaN or an infinite component: for
`v = (NaN, 0)` neither `v + Zero() == v` nor `v * 1 == v` holds, and for `v = (+inf, 0)`
`v - v == Zero()` does not hold. -/
theorem C6_identities_counterexample :
    Binary32.Vector2D.operator_eq
        ((Binary32.Vector2D.mk FP.nan (FP.fin 0)).operator_add Binary32.Vector2D.Zero)
        ⟨FP.nan, FP.fin 0⟩ = false
      ∧ Binary32.Vector2D.operator_eq
        ((Binary32.Vector2D.mk FP.nan (FP.fin 0)).operator_mul_scalar (FP.fin 1))
        ⟨FP.nan, FP.fin 0⟩ = false
      ∧ Binary32.Vector2D.operator_eq
        ((Binary32.Vector2D.mk (FP.inf false) (FP.fin 0)).operator_sub
          ⟨FP.inf false, FP.fin 0⟩)
        Binary32.Vector2D.Zero = false := by
  refine ⟨rfl, rfl, rfl⟩

/-- Claim C6, amended: for every vector `v` of binary32 components, `v + Zero() == v` and
`v * 1 == v` when no component is a NaN, and `v - v == Zero()` when both components are
finite. -/
theorem C6_identities_amended (v : Binary32.Vector2D)
    (hx : FP.IsFloat v.GetX) (hy : FP.IsFloat v.GetY) :
    (v.GetX ≠ FP.nan → v.GetY ≠ FP.nan →
        Binary32.Vector2D.operator_eq (v.operator_add Binary32.Vector2D.Zero) v = true
          ∧ Binary32.Vector2D.operator_eq (v.operator_mul_scalar (FP.fin 1)) v = true)
      ∧ ((∃ x y : ℚ, v = ⟨FP.fin x, FP.fin y⟩) →
        Binary32.Vector2D.operator_eq (v.operator_sub v) Binary32.Vector2D.Zero = true) := by
  have hadd : ∀ a : FP, FP.IsFloat a → a ≠ FP.nan →
      FP.eq (FP.add FP.round32 a (FP.fin 0)) a = true := by
    intro a ha hn
    cases a with
    | nan => exact absurd rfl hn
    | inf s => simp [FP.add, FP.eq]
    | fin x =>
      have hr : FP.round32 x = FP.fin x := ha
      simp [FP.add, hr, FP.eq]
  have hmul : ∀ a : FP, FP.IsFloat a → a ≠ FP.nan →
      FP.eq (FP.mul FP.round32 a (FP.fin 1)) a = true := by
    intro a ha hn
    cases a with
    | nan => exact absurd rfl hn
    | inf s => cases s <;> simp [FP.mul, FP.eq]
    | fin x =>
      have hr : FP.round32 x = FP.fin x := ha
      simp [FP.mul, hr, FP.eq]
  have hsub : ∀ x : ℚ, FP.eq (FP.sub FP.round32 (FP.fin x) (FP.fin x)) (FP.fin 0) = true := by
    intro x
    simp [FP.sub, FP.neg, FP.add, FP.round32_zero, FP.eq]
  obtain ⟨vx, vy⟩ := v
  refine ⟨fun hnx hny => ⟨?_, ?_⟩, ?_⟩
  · simp only [Binary32.Vector2D.operator_eq, Binary32.Vector2D.operator_add,
      Binary32.Vector2D.Zero, Binary32.Vector2D.ctor, Binary32.Vector2D.ctor_copy,
      Binary32.Vector2D.ctor_default, Binary32.Vector2D.Set, Binary32.Vector2D.GetX,
      Binary32.Vector2D.GetY, Bool.and_eq_true]
    exact ⟨hadd vx hx hnx, hadd vy hy hny⟩
  · simp only [Binary32.Vector2D.operator_eq, Binary32.Vector2D.operator_mul_scalar,
      Binary32.Vector2D.ctor, Binary32.Vector2D.GetX, Binary32.Vector2D.GetY,
      Bool.and_eq_true]
    exact ⟨hmul vx hx hnx, hmul vy hy hny⟩
  · rintro ⟨x, y, hv⟩
    cases hv
    simp only [Binary32.Vector2D.operator_eq, Binary32.Vector2D.operator_sub,
      Binary32.Vector2D.Zero, Binary32.Vector2D.ctor, Binary32.Vector2D.ctor_copy,
      Binary32.Vector2D.ctor_default, Binary32.Vector2D.Set, Binary32.Vector2D.GetX,
      Binary32.Vector2D.GetY, Bool.and_eq_true]
    exact ⟨hsub x, hsub y⟩

/-- The instance `v = (3, 4)` of the amended C6. -/
theorem C6_identities_amended_witness :
    (Binary32.Vector2D.operator_eq
        ((Binary32.Vector2D.mk (FP.fin 3) (FP.fin 4)).operator_add Binary32.Vector2D.Zero)
        ⟨FP.fin 3, FP.fin 4⟩ = true
      ∧ Binary32.Vector2D.operator_eq
        ((Binary32.Vector2D.mk (FP.fin 3) (FP.fin 4)).operator_mul_scalar (FP.fin 1))
        ⟨FP.fin 3, FP.fin 4⟩ = true)
      ∧ Binary32.Vector2D.operator_eq
        ((Binary32.Vector2D.mk (FP.fin 3) (FP.fin 4)).operator_sub ⟨FP.fin 3, FP.fin 4⟩)
        Binary32.Vector2D.Zero = true :=
  have h3 : FP.IsFloat (FP.fin 3) := by
    show FP.round32 3 = FP.fin 3
    decide!
  have h4 : FP.IsFloat (FP.fin 4) := by
    show FP.round32 4 = FP.fin 4
    decide!
  ⟨(C6_identities_amended ⟨FP.fin 3, FP.fin 4⟩ h3 h4).1 (by simp [Binary32.Vector2D.GetX])
      (by simp [Binary32.Vector2D.GetY]),
    (C6_identities_amended ⟨FP.fin 3, FP.fin 4⟩ h3 h4).2 ⟨3, 4, rfl⟩⟩

/-! ## The order `operator<=` (binary32) -/

/-- Claim C12 as stated fails on a vector with a NaN component: `(NaN, 0) <= (NaN, 0)` is
false, so `a <= a` does not hold for all vectors. -/
theorem C12_operator_le_counterexample :
    Binary32.Vector2D.operator_le ⟨FP.nan, FP.fin 0⟩ ⟨FP.nan, FP.fin 0⟩ = false := rfl

/-- Claim C12, amended: `a <= a` for every vector `a` without a NaN component; for all
vectors, `a <= b` and `b <= a` imply `a == b`, and `a <= b` and `b <= c` imply `a <= c`;
the relation is not total: neither `(0,1) <= (1,0)` nor `(1,0) <= (0,1)`. -/
theorem C12_operator_le_amended :
    (∀ a : Binary32.Vector2D, a.GetX ≠ FP.nan → a.GetY ≠ FP.nan →
        Binary32.Vector2D.operator_le a a = true)
      ∧ (∀ a b : Binary32.Vector2D, Binary32.Vector2D.operator_le a b = true →
          Binary32.Vector2D.operator_le b a = true →
          Binary32.Vector2D.operator_eq a b = true)
      ∧ (∀ a b c : Binary32.Vector2D, Binary32.Vector2D.operator_le a b = true →
          Binary32.Vector2D.operator_le b c = true →
          Binary32.Vector2D.operator_le a c = true)
      ∧ (∃ a b : Binary32.Vector2D, Binary32.Vector2D.operator_le a b = false
          ∧ Binary32.Vector2D.operator_le b a = false) := by
  refine ⟨?_, ?_, ?_, ⟨⟨FP.fin 0, FP.fin 1⟩, ⟨FP.fin 1, FP.fin 0⟩, by decide, by decide⟩⟩
  · intro a hx hy
    simp only [Binary32.Vector2D.operator_le, Bool.and_eq_true]
    exact ⟨FP.le_self _ hx, FP.le_self _ hy⟩
  · intro a b hab hba
    simp only [Binary32.Vector2D.operator_le, Bool.and_eq_true] at hab hba
    simp only [Binary32.Vector2D.operator_eq, Bool.and_eq_true]
    exact ⟨FP.eq_of_le_of_le _ _ hab.1 hba.1, FP.eq_of_le_of_le _ _ hab.2 hba.2⟩
  · intro a b c hab hbc
    simp only [Binary32.Vector2D.operator_le, Bool.and_eq_true] at hab hbc ⊢
    exact ⟨FP.le_trans_fp _ _ _ hab.1 hbc.1, FP.le_trans_fp _ _ _ hab.2 hbc.2⟩

/-- Instances of the amended C12: `(+inf, 2) <= (+inf, 2)`; `(1,2) <= (1,2)` both ways
gives `(1,2) == (1,2)`; `(0,0) <= (1,1) <= (2,3)` gives `(0,0) <= (2,3)`. -/
theorem C12_operator_le_amended_witness :
    Binary32.Vector2D.operator_le ⟨FP.inf false, FP.fin 2⟩ ⟨FP.inf false, FP.fin 2⟩ = true
      ∧ Binary32.Vector2D.operator_eq ⟨FP.fin 1, FP.fin 2⟩ ⟨FP.fin 1, FP.fin 2⟩ = true
      ∧ Binary32.Vector2D.operator_le ⟨FP.fin 0, FP.fin 0⟩ ⟨FP.fin 2, FP.fin 3⟩ = true :=
  ⟨C12_operator_le_amended.1 ⟨FP.inf false, FP.fin 2⟩ (by simp [Binary32.Vector2D.GetX])
      (by simp [Binary32.Vector2D.GetY]),
    C12_operator_le_amended.2.1 ⟨FP.fin 1, FP.fin 2⟩ ⟨FP.fin 1, FP.fin 2⟩
      (by decide) (by decide),
    C12_operator_le_amended.2.2.1 ⟨FP.fin 0, FP.fin 0⟩ ⟨FP.fin 1, FP.fin 1⟩
      ⟨FP.fin 2, FP.fin 3⟩ (by decide) (by decide)⟩

/-! ## Min and Max (binary32) -/

/-- Claim C15 as stated fails when a component is a NaN: for `l = (NaN, 0)`, `r = (0, 0)`
neither `Min(l, r) <= l` nor `l <= Max(l, r)` holds. -/
theorem C15_Min_Max_counterexample :
    Binary32.Vector2D.operator_le
        (Binary32.Vector2D.Min ⟨FP.nan, FP.fin 0⟩ ⟨FP.fin 0, FP.fin 0⟩)
        ⟨FP.nan, FP.fin 0⟩ = false
      ∧ Binary32.Vector2D.operator_le ⟨FP.nan, FP.fin 0⟩
        (Binary32.Vector2D.Max ⟨FP.nan, FP.fin 0⟩ ⟨FP.fin 0, FP.fin 0⟩) = false := by
  constructor <;> rfl

/-- Claim C15, amended: for all vectors `l`, `r` without a NaN component, each component of
`Min(l, r)` is the one of `l` or the one of `r` and is `<=` both, each component of
`Max(l, r)` is the one of `l` or the one of `r` and is `>=` both; hence `Min(l, r) <= l`,
`Min(l, r) <= r`, `l <= Max(l, r)` and `r <= Max(l, r)`. -/
theorem C15_Min_Max_amended (l r : Binary32.Vector2D)
    (hlx : l.GetX ≠ FP.nan) (hly : l.GetY ≠ FP.nan)
    (hrx : r.GetX ≠ FP.nan) (hry : r.GetY ≠ FP.nan) :
    (((Binary32.Vector2D.Min l r).GetX = l.GetX ∨ (Binary32.Vector2D.Min l r).GetX = r.GetX)
        ∧ ((Binary32.Vector2D.Min l r).GetY = l.GetY
          ∨ (Binary32.Vector2D.Min l r).GetY = r.GetY))
      ∧ (((Binary32.Vector2D.Max l r).GetX = l.GetX ∨ (Binary32.Vector2D.Max l r).GetX = r.GetX)
        ∧ ((Binary32.Vector2D.Max l r).GetY = l.GetY
          ∨ (Binary32.Vector2D.Max l r).GetY = r.GetY))
      ∧ Binary32.Vector2D.operator_le (Binary32.Vector2D.Min l r) l = true
      ∧ Binary32.Vector2D.operator_le (Binary32.Vector2D.Min l r) r = true
      ∧ Binary32.Vector2D.operator_le l (Binary32.Vector2D.Max l r) = true
      ∧ Binary32.Vector2D.operator_le r (Binary32.Vector2D.Max l r) = true := by
  have hmin : ∀ a b : FP, a ≠ FP.nan → b ≠ FP.nan →
      (Binary32.Mathf.Min a b = a ∨ Binary32.Mathf.Min a b = b)
        ∧ FP.le (Binary32.Mathf.Min a b) a = true
        ∧ FP.le (Binary32.Mathf.Min a b) b = true := by
    intro a b ha hb
    unfold Binary32.Mathf.Min
    cases h : FP.lt a b with
    | true =>
      simp only [if_true]
      exact ⟨Or.inl trivial, FP.le_self a ha, FP.le_of_lt a b h⟩
    | false =>
      simp only [Bool.false_eq_true, if_false]
      exact ⟨Or.inr trivial, FP.le_of_not_lt a b ha hb h, FP.le_self b hb⟩
  have hmax : ∀ a b : FP, a ≠ FP.nan → b ≠ FP.nan →
      (Binary32.Mathf.Max a b = a ∨ Binary32.Mathf.Max a b = b)
        ∧ FP.le a (Binary32.Mathf.Max a b) = true
        ∧ FP.le b (Binary32.Mathf.Max a b) = true := by
    intro a b ha hb
    unfold Binary32.Mathf.Max FP.gt
    cases h : FP.lt b a with
    | true =>
      simp only [if_true]
      exact ⟨Or.inl trivial, FP.le_self a ha, FP.le_of_lt b a h⟩
    | false =>
      simp only [Bool.false_eq_true, if_false]
      exact ⟨Or.inr trivial, FP.le_of_not_lt b a hb ha h, FP.le_self b hb⟩
  obtain ⟨lx, ly⟩ := l
  obtain ⟨rx, ry⟩ := r
  have mx := hmin lx rx hlx hrx
  have my := hmin ly ry hly hry
  have Mx := hmax lx rx hlx hrx
  have My := hmax ly ry hly hry
  simp only [Binary32.Vector2D.Min, Binary32.Vector2D.Max, Binary32.Vector2D.operator_le,
    Binary32.Vector2D.ctor, Binary32.Vector2D.GetX, Binary32.Vector2D.GetY, Bool.and_eq_true]
  exact ⟨⟨mx.1, my.1⟩, ⟨Mx.1, My.1⟩, ⟨mx.2.1, my.2.1⟩, ⟨mx.2.2, my.2.2⟩, ⟨Mx.2.1, My.2.1⟩,
    ⟨Mx.2.2, My.2.2⟩⟩

/-- The instance `l = (1, +inf)`, `r = (2, 0)` of the amended C15:
`Min(l, r) = (1, 0)` and `Max(l, r) = (2, +inf)`. -/
theorem C15_Min_Max_amended_witness :
    Binary32.Vector2D.operator_le
        (Binary32.Vector2D.Min ⟨FP.fin 1, FP.inf false⟩ ⟨FP.fin 2, FP.fin 0⟩)
        ⟨FP.fin 1, FP.inf false⟩ = true
      ∧ Binary32.Vector2D.operator_le ⟨FP.fin 2, FP.fin 0⟩
        (Binary32.Vector2D.Max ⟨FP.fin 1, FP.inf false⟩ ⟨FP.fin 2, FP.fin 0⟩) = true :=
  have h := C15_Min_Max_amended ⟨FP.fin 1, FP.inf false⟩ ⟨FP.fin 2, FP.fin 0⟩
    (by simp [Binary32.Vector2D.GetX]) (by simp [Binary32.Vector2D.GetY])
    (by simp [Binary32.Vector2D.GetX]) (by simp [Binary32.Vector2D.GetY])
  ⟨h.2.2.1, h.2.2.2.2.2⟩

/-! ## Interpolation (binary32) -/

namespace Binary32

theorem Clamp01_of_lt (t : FP) (h : FP.lt t (FP.fin 0) = true) : Mathf.Clamp01 t = FP.fin 0 := by
  simp [Mathf.Clamp01, h]

theorem Clamp01_of_gt (t : FP) (h : FP.gt t (FP.fin 1) = true) : Mathf.Clamp01 t = FP.fin 1 := by
  have h0 : FP.lt t (FP.fin 0) = false := by
    cases t with
    | nan => rfl
    | inf s => cases s <;> simp_all [FP.gt, FP.lt]
    | fin x =>
      simp only [FP.gt, FP.lt, decide_eq_true_eq] at h
      simp only [FP.lt, decide_eq_false_iff_not, not_lt]
      linarith
  simp [Mathf.Clamp01, h, h0]

theorem Clamp01_zero : Mathf.Clamp01 (FP.fin 0) = FP.fin 0 := by
  simp [Mathf.Clamp01, FP.lt, FP.gt]

theorem Clamp01_one : Mathf.Clamp01 (FP.fin 1) = FP.fin 1 := by
  simp [Mathf.Clamp01, FP.lt, FP.gt]

/-- One component of `Lerp` at a clamped parameter 0, when the difference is finite. -/
theorem lerp_component_zero (a b d : ℚ) (ha : FP.round32 a = FP.fin a)
    (hd : FP.round32 (b - a) = FP.fin d) :
    FP.add FP.round32 (FP.fin a)
      (FP.mul FP.round32 (FP.sub FP.round32 (FP.fin b) (FP.fin a)) (FP.fin 0)) = FP.fin a := by
  have hs : FP.sub FP.round32 (FP.fin b) (FP.fin a) = FP.fin d := by
    show FP.round32 (b + -a) = FP.fin d
    rw [← sub_eq_add_neg, hd]
  have hm : FP.mul FP.round32 (FP.fin d) (FP.fin 0) = FP.fin 0 := by
    show FP.round32 (d * 0) = FP.fin 0
    rw [mul_zero, FP.round32_zero]
  rw [hs, hm]
  show FP.round32 (a + 0) = FP.fin a
  rw [add_zero, ha]

/-- One component of `Lerp` at a clamped parameter 1, when the difference is exact. -/
theorem lerp_component_one (a b : ℚ) (hb : FP.round32 b = FP.fin b)
    (hd : FP.round32 (b - a) = FP.fin (b - a)) :
    FP.add FP.round32 (FP.fin a)
      (FP.mul FP.round32 (FP.sub FP.round32 (FP.fin b) (FP.fin a)) (FP.fin 1)) = FP.fin b := by
  have hs : FP.sub FP.round32 (FP.fin b) (FP.fin a) = FP.fin (b - a) := by
    show FP.round32 (b + -a) = FP.fin (b - a)
    rw [← sub_eq_add_neg, hd]
  have hm : FP.mul FP.round32 (FP.fin (b - a)) (FP.fin 1) = FP.fin (b - a) := by
    show FP.round32 ((b - a) * 1) = FP.fin (b - a)
    rw [mul_one, hd]
  rw [hs, hm]
  show FP.round32 (a + (b - a)) = FP.fin b
  rw [add_sub_cancel, hb]

end Binary32

/-- Claim C7 as stated fails at `a = (1e8, 0)`, `b = (1, 0)`, both of binary32 components:
`b.x - a.x` rounds to `-1e8`, so `Lerp(a, b, 1) = (0, 0)`, and `Lerp(a, b, 1) == b` is
false; likewise `Lerp(a, b, 2) == b` is false. -/
theorem C7_Lerp_counterexample :
    (FP.IsFloat (FP.fin 100000000) ∧ FP.IsFloat (FP.fin 1) ∧ FP.IsFloat (FP.fin 0))
      ∧ Binary32.Vector2D.Lerp ⟨FP.fin 100000000, FP.fin 0⟩ ⟨FP.fin 1, FP.fin 0⟩ (FP.fin 1)
          = ⟨FP.fin 0, FP.fin 0⟩
      ∧ Binary32.Vector2D.operator_eq
          (Binary32.Vector2D.Lerp ⟨FP.fin 100000000, FP.fin 0⟩ ⟨FP.fin 1, FP.fin 0⟩ (FP.fin 1))
          ⟨FP.fin 1, FP.fin 0⟩ = false
      ∧ Binary32.Vector2D.operator_eq
          (Binary32.Vector2D.Lerp ⟨FP.fin 100000000, FP.fin 0⟩ ⟨FP.fin 1, FP.fin 0⟩ (FP.fin 2))
          ⟨FP.fin 1, FP.fin 0⟩ = false := by
  refine ⟨⟨?_, ?_, ?_⟩, ?_, ?_, ?_⟩
  · show FP.round32 100000000 = FP.fin 100000000
    decide!
  · show FP.round32 1 = FP.fin 1
    decide!
  · show FP.round32 0 = FP.fin 0
    decide!
  · decide!
  · decide!
  · decide!

/-- Claim C7, amended: for all `a`, `b`, `t`, `Lerp(a, b, t)` is `a + (b - a) * c`, each
operation rounded to binary32, with `c` the clamp of `t` to [0,1] (0 for `t < 0`, 1 for
`t > 1`). For `a` of finite binary32 components and differences `b.x - a.x`, `b.y - a.y`
that do not overflow, `Lerp(a, b, 0) == a` and `Lerp(a, b, t) == a` for every `t < 0`. For
`b` of finite binary32 components and differences that are exact in binary32,
`Lerp(a, b, 1) == b` and `Lerp(a, b, t) == b` for every `t > 1`. -/
theorem C7_Lerp_amended :
    (∀ (a b : Binary32.Vector2D) (t : FP),
        Binary32.Vector2D.Lerp a b t
            = a.operator_add ((b.operator_sub a).operator_mul_scalar (Binary32.Mathf.Clamp01 t))
          ∧ (FP.lt t (FP.fin 0) = true → Binary32.Mathf.Clamp01 t = FP.fin 0)
          ∧ (FP.gt t (FP.fin 1) = true → Binary32.Mathf.Clamp01 t = FP.fin 1)
          ∧ (FP.lt t (FP.fin 0) = false → FP.gt t (FP.fin 1) = false →
              Binary32.Mathf.Clamp01 t = t))
      ∧ (∀ (ax ay bx b_y dx dy : ℚ) (t : FP),
          FP.round32 ax = FP.fin ax → FP.round32 ay = FP.fin ay →
          FP.round32 (bx - ax) = FP.fin dx → FP.round32 (b_y - ay) = FP.fin dy →
          Binary32.Vector2D.operator_eq
              (Binary32.Vector2D.Lerp ⟨FP.fin ax, FP.fin ay⟩ ⟨FP.fin bx, FP.fin b_y⟩ (FP.fin 0))
              ⟨FP.fin ax, FP.fin ay⟩ = true
            ∧ (FP.lt t (FP.fin 0) = true →
              Binary32.Vector2D.operator_eq
                (Binary32.Vector2D.Lerp ⟨FP.fin ax, FP.fin ay⟩ ⟨FP.fin bx, FP.fin b_y⟩ t)
                ⟨FP.fin ax, FP.fin ay⟩ = true))
      ∧ (∀ (ax ay bx b_y : ℚ) (t : FP),
          FP.round32 bx = FP.fin bx → FP.round32 b_y = FP.fin b_y →
          FP.round32 (bx - ax) = FP.fin (bx - ax) →
          FP.round32 (b_y - ay) = FP.fin (b_y - ay) →
          Binary32.Vector2D.operator_eq
              (Binary32.Vector2D.Lerp ⟨FP.fin ax, FP.fin ay⟩ ⟨FP.fin bx, FP.fin b_y⟩ (FP.fin 1))
              ⟨FP.fin bx, FP.fin b_y⟩ = true
            ∧ (FP.gt t (FP.fin 1) = true →
              Binary32.Vector2D.operator_eq
                (Binary32.Vector2D.Lerp ⟨FP.fin ax, FP.fin ay⟩ ⟨FP.fin bx, FP.fin b_y⟩ t)
                ⟨FP.fin bx, FP.fin b_y⟩ = true)) := by
  refine ⟨?_, ?_, ?_⟩
  · intro a b t
    refine ⟨rfl, Binary32.Clamp01_of_lt t, Binary32.Clamp01_of_gt t, ?_⟩
    intro h0 h1
    simp [Binary32.Mathf.Clamp01, h0, h1]
  · intro ax ay bx b_y dx dy t hax hay hdx hdy
    have key : ∀ c : FP, Binary32.Mathf.Clamp01 c = FP.fin 0 →
        Binary32.Vector2D.operator_eq
          (Binary32.Vector2D.Lerp ⟨FP.fin ax, FP.fin ay⟩ ⟨FP.fin bx, FP.fin b_y⟩ c)
          ⟨FP.fin ax, FP.fin ay⟩ = true := by
      intro c hc
      simp only [Binary32.Vector2D.Lerp, hc, Binary32.Vector2D.operator_eq,
        Binary32.Vector2D.ctor, Binary32.Vector2D.GetX, Binary32.Vector2D.GetY,
        Binary32.lerp_component_zero ax bx dx hax hdx,
        Binary32.lerp_component_zero ay b_y dy hay hdy]
      simp [FP.eq]
    exact ⟨key _ Binary32.Clamp01_zero, fun ht => key t (Binary32.Clamp01_of_lt t ht)⟩
  · intro ax ay bx b_y t hbx hby hdx hdy
    have key : ∀ c : FP, Binary32.Mathf.Clamp01 c = FP.fin 1 →
        Binary32.Vector2D.operator_eq
          (Binary32.Vector2D.Lerp ⟨FP.fin ax, FP.fin ay⟩ ⟨FP.fin bx, FP.fin b_y⟩ c)
          ⟨FP.fin bx, FP.fin b_y⟩ = true := by
      intro c hc
      simp only [Binary32.Vector2D.Lerp, hc, Binary32.Vector2D.operator_eq,
        Binary32.Vector2D.ctor, Binary32.Vector2D.GetX, Binary32.Vector2D.GetY,
        Binary32.lerp_component_one ax bx hbx hdx,
        Binary32.lerp_component_one ay b_y hby hdy]
      simp [FP.eq]
    exact ⟨key _ Binary32.Clamp01_one, fun ht => key t (Binary32.Clamp01_of_gt t ht)⟩

/-- Instances of the amended C7 at `a = (1, 2)`, `b = (5, 7)`: below 0 the result is `a`,
above 1 it is `b`. -/
theorem C7_Lerp_amended_witness :
    Binary32.Vector2D.operator_eq
        (Binary32.Vector2D.Lerp ⟨FP.fin 1, FP.fin 2⟩ ⟨FP.fin 5, FP.fin 7⟩ (FP.fin (-3)))
        ⟨FP.fin 1, FP.fin 2⟩ = true
      ∧ Binary32.Vector2D.operator_eq
        (Binary32.Vector2D.Lerp ⟨FP.fin 1, FP.fin 2⟩ ⟨FP.fin 5, FP.fin 7⟩ (FP.inf false))
        ⟨FP.fin 5, FP.fin 7⟩ = true :=
  ⟨(C7_Lerp_amended.2.1 1 2 5 7 4 5 (FP.fin (-3)) (by decide!) (by decide!) (by decide!)
      (by decide!)).2 (by decide),
    (C7_Lerp_amended.2.2 1 2 5 7 (FP.inf false) (by decide!) (by decide!) (by decide!)
      (by decide!)).2 (by decide)⟩

namespace Binary32

/-- One component of `LerpUnclamped` at `t = 2`, when no operation rounds. -/
theorem lerpUnclamped_component_two (a b : ℚ)
    (h1 : FP.round32 (b - a) = FP.fin (b - a))
    (h2 : FP.round32 ((b - a) * 2) = FP.fin ((b - a) * 2))
    (h3 : FP.round32 (a + (b - a) * 2) = FP.fin (a + (b - a) * 2)) :
    FP.add FP.round32 (FP.fin a)
      (FP.mul FP.round32 (FP.sub FP.round32 (FP.fin b) (FP.fin a)) (FP.fin 2))
      = FP.fin (2 * b - a) := by
  have hs : FP.sub FP.round32 (FP.fin b) (FP.fin a) = FP.fin (b - a) := by
    show FP.round32 (b + -a) = FP.fin (b - a)
    rw [← sub_eq_add_neg, h1]
  have hm : FP.mul FP.round32 (FP.fin (b - a)) (FP.fin 2) = FP.fin ((b - a) * 2) := h2
  rw [hs, hm]
  show FP.round32 (a + (b - a) * 2) = FP.fin (2 * b - a)
  rw [h3]
  congr 1
  ring

/-- One component of `b * 2 - a`, when no operation rounds. -/
theorem twice_minus_component (a b : ℚ)
    (h4 : FP.round32 (b * 2) = FP.fin (b * 2))
    (h3 : FP.round32 (a + (b - a) * 2) = FP.fin (a + (b - a) * 2)) :
    FP.sub FP.round32 (FP.mul FP.round32 (FP.fin b) (FP.fin 2)) (FP.fin a)
      = FP.fin (2 * b - a) := by
  have hm : FP.mul FP.round32 (FP.fin b) (FP.fin 2) = FP.fin (b * 2) := h4
  rw [hm]
  show FP.round32 (b * 2 + -a) = FP.fin (2 * b - a)
  have e : b * 2 + -a = a + (b - a) * 2 := by ring
  rw [e, h3]
  congr 1
  ring

end Binary32

/-- Claim C8 as stated fails at `a = (0.1f, 0)`, `b = (0.3f, 0)` (the binary32 values
nearest 0.1 and 0.3): `LerpUnclamped(a, b, 2).x = 0.5 + 2^-24` while `(b * 2 - a).x = 0.5`,
so `LerpUnclamped(a, b, 2) == b * 2 - a` is false. -/
theorem C8_LerpUnclamped_counterexample :
    (FP.IsFloat (FP.fin (13421773 / 134217728)) ∧ FP.IsFloat (FP.fin (10066330 / 33554432)))
      ∧ Binary32.Vector2D.LerpUnclamped ⟨FP.fin (13421773 / 134217728), FP.fin 0⟩
          ⟨FP.fin (10066330 / 33554432), FP.fin 0⟩ (FP.fin 2)
          = ⟨FP.fin (1 / 2 + 1 / 16777216), FP.fin 0⟩
      ∧ ((Binary32.Vector2D.mk (FP.fin (10066330 / 33554432)) (FP.fin 0)).operator_mul_scalar
            (FP.fin 2)).operator_sub ⟨FP.fin (13421773 / 134217728), FP.fin 0⟩
          = ⟨FP.fin (1 / 2), FP.fin 0⟩
      ∧ Binary32.Vector2D.operator_eq
          (Binary32.Vector2D.LerpUnclamped ⟨FP.fin (13421773 / 134217728), FP.fin 0⟩
            ⟨FP.fin (10066330 / 33554432), FP.fin 0⟩ (FP.fin 2))
          (((Binary32.Vector2D.mk (FP.fin (10066330 / 33554432)) (FP.fin 0)).operator_mul_scalar
            (FP.fin 2)).operator_sub ⟨FP.fin (13421773 / 134217728), FP.fin 0⟩) = false := by
  refine ⟨⟨?_, ?_⟩, ?_, ?_, ?_⟩
  · show FP.round32 (13421773 / 134217728) = FP.fin (13421773 / 134217728)
    decide!
  · show FP.round32 (10066330 / 33554432) = FP.fin (10066330 / 33554432)
    decide!
  · decide!
  · decide!
  · decide!

/-- Claim C8, amended: for all `a`, `b`, `t`, `LerpUnclamped(a, b, t)` is
`(a.x + (b.x - a.x) * t, a.y + (b.y - a.y) * t)`, each operation rounded to binary32, with
no clamping. For `a`, `b` of finite components such that in each component `b`, `b - a`,
`(b - a) * 2`, `b * 2` and `a + (b - a) * 2` are exact in binary32:
`LerpUnclamped(a, b, 2) == b * 2 - a`, its components being `2 * b - a`,
`Lerp(a, b, 2) == b`, and the two are not `==` whenever `a == b` is false. -/
theorem C8_LerpUnclamped_amended :
    (∀ (a b : Binary32.Vector2D) (t : FP),
        Binary32.Vector2D.LerpUnclamped a b t
          = ⟨FP.add FP.round32 a.GetX (FP.mul FP.round32 (FP.sub FP.round32 b.GetX a.GetX) t),
             FP.add FP.round32 a.GetY (FP.mul FP.round32 (FP.sub FP.round32 b.GetY a.GetY) t)⟩)
      ∧ (∀ (ax ay bx b_y : ℚ),
          FP.round32 bx = FP.fin bx → FP.round32 b_y = FP.fin b_y →
          FP.round32 (bx - ax) = FP.fin (bx - ax) →
          FP.round32 (b_y - ay) = FP.fin (b_y - ay) →
          FP.round32 ((bx - ax) * 2) = FP.fin ((bx - ax) * 2) →
          FP.round32 ((b_y - ay) * 2) = FP.fin ((b_y - ay) * 2) →
          FP.round32 (bx * 2) = FP.fin (bx * 2) → FP.round32 (b_y * 2) = FP.fin (b_y * 2) →
          FP.round32 (ax + (bx - ax) * 2) = FP.fin (ax + (bx - ax) * 2) →
          FP.round32 (ay + (b_y - ay) * 2) = FP.fin (ay + (b_y - ay) * 2) →
          Binary32.Vector2D.LerpUnclamped ⟨FP.fin ax, FP.fin ay⟩ ⟨FP.fin bx, FP.fin b_y⟩
              (FP.fin 2) = ⟨FP.fin (2 * bx - ax), FP.fin (2 * b_y - ay)⟩
            ∧ Binary32.Vector2D.operator_eq
              (Binary32.Vector2D.LerpUnclamped ⟨FP.fin ax, FP.fin ay⟩ ⟨FP.fin bx, FP.fin b_y⟩
                (FP.fin 2))
              (((Binary32.Vector2D.mk (FP.fin bx) (FP.fin b_y)).operator_mul_scalar
                (FP.fin 2)).operator_sub ⟨FP.fin ax, FP.fin ay⟩) = true
            ∧ Binary32.Vector2D.operator_eq
              (Binary32.Vector2D.Lerp ⟨FP.fin ax, FP.fin ay⟩ ⟨FP.fin bx, FP.fin b_y⟩ (FP.fin 2))
              ⟨FP.fin bx, FP.fin b_y⟩ = true
            ∧ (Binary32.Vector2D.operator_eq ⟨FP.fin ax, FP.fin ay⟩ ⟨FP.fin bx, FP.fin b_y⟩
                = false →
              Binary32.Vector2D.operator_eq
                (Binary32.Vector2D.LerpUnclamped ⟨FP.fin ax, FP.fin ay⟩
                  ⟨FP.fin bx, FP.fin b_y⟩ (FP.fin 2))
                (Binary32.Vector2D.Lerp ⟨FP.fin ax, FP.fin ay⟩ ⟨FP.fin bx, FP.fin b_y⟩
                  (FP.fin 2)) = false)) := by
  refine ⟨fun a b t => rfl, ?_⟩
  intro ax ay bx b_y hbx hby h1x h1y h2x h2y h4x h4y h3x h3y
  have hU : Binary32.Vector2D.LerpUnclamped ⟨FP.fin ax, FP.fin ay⟩ ⟨FP.fin bx, FP.fin b_y⟩
      (FP.fin 2) = ⟨FP.fin (2 * bx - ax), FP.fin (2 * b_y - ay)⟩ := by
    simp only [Binary32.Vector2D.LerpUnclamped, Binary32.Vector2D.ctor,
      Binary32.Vector2D.GetX, Binary32.Vector2D.GetY,
      Binary32.lerpUnclamped_component_two ax bx h1x h2x h3x,
      Binary32.lerpUnclamped_component_two ay b_y h1y h2y h3y]
  have hT : ((Binary32.Vector2D.mk (FP.fin bx) (FP.fin b_y)).operator_mul_scalar
      (FP.fin 2)).operator_sub ⟨FP.fin ax, FP.fin ay⟩
        = ⟨FP.fin (2 * bx - ax), FP.fin (2 * b_y - ay)⟩ := by
    simp only [Binary32.Vector2D.operator_sub, Binary32.Vector2D.operator_mul_scalar,
      Binary32.Vector2D.ctor, Binary32.Vector2D.ctor_copy, Binary32.Vector2D.ctor_default,
      Binary32.Vector2D.Set, Binary32.Vector2D.GetX, Binary32.Vector2D.GetY,
      Binary32.twice_minus_component ax bx h4x h3x,
      Binary32.twice_minus_component ay b_y h4y h3y]
  have hc2 : Binary32.Mathf.Clamp01 (FP.fin 2) = FP.fin 1 :=
    Binary32.Clamp01_of_gt _ (by decide)
  have hL : Binary32.Vector2D.Lerp ⟨FP.fin ax, FP.fin ay⟩ ⟨FP.fin bx, FP.fin b_y⟩ (FP.fin 2)
      = ⟨FP.fin bx, FP.fin b_y⟩ := by
    simp only [Binary32.Vector2D.Lerp, hc2, Binary32.Vector2D.ctor,
      Binary32.Vector2D.GetX, Binary32.Vector2D.GetY,
      Binary32.lerp_component_one ax bx hbx h1x,
      Binary32.lerp_component_one ay b_y hby h1y]
  refine ⟨hU, ?_, ?_, ?_⟩
  · rw [hU, hT]
    simp [Binary32.Vector2D.operator_eq, Binary32.Vector2D.GetX, Binary32.Vector2D.GetY,
      FP.eq]
  · rw [hL]
    simp [Binary32.Vector2D.operator_eq, Binary32.Vector2D.GetX, Binary32.Vector2D.GetY,
      FP.eq]
  · intro hne
    rw [hU, hL]
    simp only [Binary32.Vector2D.operator_eq, Binary32.Vector2D.GetX,
      Binary32.Vector2D.GetY, FP.eq, Bool.and_eq_false_iff, decide_eq_false_iff_not] at hne ⊢
    rcases hne with h | h
    · left
      intro h'
      exact h (by linarith)
    · right
      intro h'
      exact h (by linarith)

/-- The instance `a = (0, 0)`, `b = (1, 0)` of the amended C8: `LerpUnclamped(a, b, 2)` is
`(2, 0)`, not `==` to `Lerp(a, b, 2) = (1, 0)`. -/
theorem C8_LerpUnclamped_amended_witness :
    Binary32.Vector2D.LerpUnclamped ⟨FP.fin 0, FP.fin 0⟩ ⟨FP.fin 1, FP.fin 0⟩ (FP.fin 2)
        = ⟨FP.fin (2 * 1 - 0), FP.fin (2 * 0 - 0)⟩
      ∧ Binary32.Vector2D.operator_eq
        (Binary32.Vector2D.LerpUnclamped ⟨FP.fin 0, FP.fin 0⟩ ⟨FP.fin 1, FP.fin 0⟩ (FP.fin 2))
        (Binary32.Vector2D.Lerp ⟨FP.fin 0, FP.fin 0⟩ ⟨FP.fin 1, FP.fin 0⟩ (FP.fin 2))
        = false :=
  have h := C8_LerpUnclamped_amended.2 0 0 1 0 (by decide!) (by decide!) (by decide!)
    (by decide!) (by decide!) (by decide!) (by decide!) (by decide!) (by decide!)
    (by decide!)
  ⟨h.1, h.2.2.2 (by decide)⟩

/-! ## Perpendicular (binary32) -/

namespace FP

theorem neg_neg_fp (a : FP) : neg (neg a) = a := by
  cases a <;> simp [neg]

theorem zero_le_round (prec : ℕ) (emin emax : ℤ) (q : ℚ) (hq : 0 ≤ q) :
    le (fin 0) (round prec emin emax q) = true := by
  rcases round_of_nonneg prec emin emax q hq with h | ⟨v, hv, h⟩
  · rw [h]; rfl
  · rw [h]; simpa [le] using hv

theorem zero_le_add32 {a b : FP} (ha : le (fin 0) a = true) (hb : le (fin 0) b = true) :
    le (fin 0) (add round32 a b) = true := by
  cases a with
  | nan => simp [le] at ha
  | inf s =>
    cases b with
    | nan => simp [le] at hb
    | inf t => cases s <;> cases t <;> simp_all [le, add]
    | fin w => cases s <;> simp_all [le, add]
  | fin v =>
    cases b with
    | nan => simp [le] at hb
    | inf t => cases t <;> simp_all [le, add]
    | fin w =>
      simp only [le, decide_eq_true_eq] at ha hb
      exact zero_le_round _ _ _ (v + w) (add_nonneg ha hb)

end FP

/-- Claim C14 as stated fails on a vector with an infinite component: for `v = (+inf, 1)`,
`Dot(v, Perpendicular(v))` is `-inf + inf`, a NaN, not 0. -/
theorem C14_Perpendicular_counterexample :
    Binary32.Vector2D.Dot ⟨FP.inf false, FP.fin 1⟩
        (Binary32.Vector2D.Perpendicular ⟨FP.inf false, FP.fin 1⟩) = FP.nan
      ∧ FP.eq (Binary32.Vector2D.Dot ⟨FP.inf false, FP.fin 1⟩
        (Binary32.Vector2D.Perpendicular ⟨FP.inf false, FP.fin 1⟩)) (FP.fin 0) = false := by
  constructor <;> rfl

/-- Claim C14, amended: for every `v = (x, y)`, `Perpendicular(v) = (-y, x)` and its squared
magnitude is computed to the same value as that of `v`; for every `v` of finite binary32
components `Dot(v, Perpendicular(v)) = 0`; and for every `v` without a NaN component the
cross product `v.x * p.y - v.y * p.x` with `p = Perpendicular(v)`, computed in binary32, is
`>= 0`. -/
theorem C14_Perpendicular_amended :
    (∀ v : Binary32.Vector2D,
        Binary32.Vector2D.Perpendicular v = ⟨FP.neg v.GetY, v.GetX⟩
          ∧ (Binary32.Vector2D.Perpendicular v).GetSqrMagnitude = v.GetSqrMagnitude)
      ∧ (∀ x y : ℚ, FP.round32 x = FP.fin x → FP.round32 y = FP.fin y →
          Binary32.Vector2D.Dot ⟨FP.fin x, FP.fin y⟩
            (Binary32.Vector2D.Perpendicular ⟨FP.fin x, FP.fin y⟩) = FP.fin 0)
      ∧ (∀ v : Binary32.Vector2D, v.GetX ≠ FP.nan → v.GetY ≠ FP.nan →
          FP.le (FP.fin 0)
            (FP.sub FP.round32
              (FP.mul FP.round32 v.GetX (Binary32.Vector2D.Perpendicular v).GetY)
              (FP.mul FP.round32 v.GetY (Binary32.Vector2D.Perpendicular v).GetX)) = true) := by
  refine ⟨?_, ?_, ?_⟩
  · intro v
    refine ⟨rfl, ?_⟩
    obtain ⟨vx, vy⟩ := v
    simp only [Binary32.Vector2D.GetSqrMagnitude, Binary32.Vector2D.Perpendicular,
      Binary32.Vector2D.ctor, Binary32.Vector2D.GetX, Binary32.Vector2D.GetY,
      FP.mul_neg_neg]
    rw [FP.add_swap]
  · intro x y hx hy
    obtain ⟨p, hp⟩ := FP.round64_mul_finite x y hx hy
    have h1 : FP.mul FP.round64 (FP.fin x) (FP.fin (-y)) = FP.fin (-p) := by
      show FP.round64 (x * -y) = FP.fin (-p)
      have e : x * -y = -(x * y) := by ring
      rw [e]
      show FP.round 53 (-1022) 1023 (-(x * y)) = FP.fin (-p)
      rw [FP.round_neg]
      show FP.neg (FP.round64 (x * y)) = FP.fin (-p)
      rw [hp]
      rfl
    have h2 : FP.mul FP.round64 (FP.fin y) (FP.fin x) = FP.fin p := by
      show FP.round64 (y * x) = FP.fin p
      rw [mul_comm, hp]
    simp only [Binary32.Vector2D.Dot, Binary32.Vector2D.Perpendicular,
      Binary32.Vector2D.ctor, Binary32.Vector2D.GetX, Binary32.Vector2D.GetY, FP.neg, h1, h2]
    show FP.toFloat (FP.round64 (-p + p)) = FP.fin 0
    rw [neg_add_cancel, FP.round64_zero]
    exact FP.round32_zero
  · intro v hx hy
    obtain ⟨vx, vy⟩ := v
    simp only [Binary32.Vector2D.GetX, Binary32.Vector2D.GetY] at hx hy
    simp only [Binary32.Vector2D.Perpendicular, Binary32.Vector2D.ctor,
      Binary32.Vector2D.GetX, Binary32.Vector2D.GetY]
    unfold FP.sub
    apply FP.zero_le_add32
    · cases vx with
      | nan => exact absurd rfl hx
      | inf s => cases s <;> rfl
      | fin x => exact FP.zero_le_round _ _ _ (x * x) (mul_self_nonneg x)
    · cases vy with
      | nan => exact absurd rfl hy
      | inf t => cases t <;> rfl
      | fin y =>
        show FP.le (FP.fin 0) (FP.neg (FP.round32 (y * -y))) = true
        have e : y * -y = -(y * y) := by ring
        rw [e]
        show FP.le (FP.fin 0) (FP.neg (FP.round 24 (-126) 127 (-(y * y)))) = true
        rw [FP.round_neg, FP.neg_neg_fp]
        exact FP.zero_le_round _ _ _ (y * y) (mul_self_nonneg y)

/-- Instances of the amended C14 at `v = (3, 4)`: the dot product with `(-4, 3)` is 0 and
the cross product is `>= 0`. -/
theorem C14_Perpendicular_amended_witness :
    Binary32.Vector2D.Dot ⟨FP.fin 3, FP.fin 4⟩
        (Binary32.Vector2D.Perpendicular ⟨FP.fin 3, FP.fin 4⟩) = FP.fin 0
      ∧ FP.le (FP.fin 0)
        (FP.sub FP.round32
          (FP.mul FP.round32 (FP.fin 3)
            (Binary32.Vector2D.Perpendicular ⟨FP.fin 3, FP.fin 4⟩).GetY)
          (FP.mul FP.round32 (FP.fin 4)
            (Binary32.Vector2D.Perpendicular ⟨FP.fin 3, FP.fin 4⟩).GetX)) = true :=
  ⟨C14_Perpendicular_amended.2.1 3 4 (by decide!) (by decide!),
    C14_Perpendicular_amended.2.2 ⟨FP.fin 3, FP.fin 4⟩ (by simp [Binary32.Vector2D.GetX])
      (by simp [Binary32.Vector2D.GetY])⟩

/-! ## Distance (binary32) -/

/-- Claim C16 as stated fails at `a = (1, 0)`, `b = (2^25, 0)`: `Distance` subtracts in
`double` and returns 33554430, while `b - a` is rounded to binary32 and
`(b - a).GetMagnitude()` is 33554432 (`Mathf::Sqrt` the correctly rounded root). -/
theorem C16_Distance_counterexample :
    (FP.IsFloat (FP.fin 1) ∧ FP.IsFloat (FP.fin 33554432))
      ∧ Binary32.Vector2D.Distance Binary32.Mathf.Sqrt ⟨FP.fin 1, FP.fin 0⟩
          ⟨FP.fin 33554432, FP.fin 0⟩ = FP.fin 33554430
      ∧ Binary32.Vector2D.GetMagnitude Binary32.Mathf.Sqrt
          ((Binary32.Vector2D.mk (FP.fin 33554432) (FP.fin 0)).operator_sub
            ⟨FP.fin 1, FP.fin 0⟩) = FP.fin 33554432 := by
  refine ⟨⟨?_, ?_⟩, ?_, ?_⟩
  · show FP.round32 1 = FP.fin 1
    decide!
  · show FP.round32 33554432 = FP.fin 33554432
    decide!
  · decide!
  · decide!

/-- Claim C16, amended: for all `a`, `b`, `Distance(a, b)` is `Sqrt` of the binary32
rounding of `(b.x - a.x)² + (b.y - a.y)²`, the differences, squares and sum being computed
in `double`; it is symmetric; it equals `(b - a).GetMagnitude()` when the binary32
differences `b.x - a.x`, `b.y - a.y` coincide with the `double` ones; and
`Distance((0,0), (3,4)) = 5` when `Sqrt` is the root at 25. -/
theorem C16_Distance_amended (Sqrt : FP → FP) (a b : Binary32.Vector2D) :
    Binary32.Vector2D.Distance Sqrt a b
        = Sqrt (FP.toFloat (FP.add FP.round64
            (FP.mul FP.round64 (FP.sub FP.round64 b.GetX a.GetX)
              (FP.sub FP.round64 b.GetX a.GetX))
            (FP.mul FP.round64 (FP.sub FP.round64 b.GetY a.GetY)
              (FP.sub FP.round64 b.GetY a.GetY))))
      ∧ Binary32.Vector2D.Distance Sqrt a b = Binary32.Vector2D.Distance Sqrt b a
      ∧ (FP.sub FP.round32 b.GetX a.GetX = FP.sub FP.round64 b.GetX a.GetX →
          FP.sub FP.round32 b.GetY a.GetY = FP.sub FP.round64 b.GetY a.GetY →
          Binary32.Vector2D.Distance Sqrt a b
            = Binary32.Vector2D.GetMagnitude Sqrt (b.operator_sub a))
      ∧ (Sqrt (FP.fin 25) = FP.fin 5 →
          Binary32.Vector2D.Distance Sqrt ⟨FP.fin 0, FP.fin 0⟩ ⟨FP.fin 3, FP.fin 4⟩
            = FP.fin 5) := by
  refine ⟨rfl, ?_, ?_, ?_⟩
  · have hodd : ∀ q : ℚ, FP.round64 (-q) = FP.neg (FP.round64 q) :=
      fun q => FP.round_neg 53 (-1022) 1023 q
    simp only [Binary32.Vector2D.Distance]
    rw [FP.sub_swap FP.round64 hodd a.GetX b.GetX, FP.sub_swap FP.round64 hodd a.GetY b.GetY,
      FP.mul_neg_neg, FP.mul_neg_neg]
  · intro hx hy
    simp only [Binary32.Vector2D.Distance, Binary32.Vector2D.GetMagnitude,
      Binary32.Vector2D.operator_sub, Binary32.Vector2D.ctor_copy,
      Binary32.Vector2D.ctor_default, Binary32.Vector2D.Set, Binary32.Vector2D.ctor,
      Binary32.Vector2D.GetX, Binary32.Vector2D.GetY] at hx hy ⊢
    rw [hx, hy]
  · intro h25
    have harg : FP.toFloat (FP.add FP.round64
        (FP.mul FP.round64 (FP.sub FP.round64 (FP.fin 3) (FP.fin 0))
          (FP.sub FP.round64 (FP.fin 3) (FP.fin 0)))
        (FP.mul FP.round64 (FP.sub FP.round64 (FP.fin 4) (FP.fin 0))
          (FP.sub FP.round64 (FP.fin 4) (FP.fin 0)))) = FP.fin 25 := by
      decide!
    simp only [Binary32.Vector2D.Distance, Binary32.Vector2D.GetX, Binary32.Vector2D.GetY,
      harg, h25]

/-- Instances of the amended C16 with the correctly rounded root for `Sqrt`:
`Distance((0,0), (3,4)) = 5`, and at `a = (1, 2)`, `b = (4, 6)`, whose differences are
exact, `Distance(a, b) = (b - a).GetMagnitude()`. -/
theorem C16_Distance_amended_witness :
    Binary32.Vector2D.Distance Binary32.Mathf.Sqrt ⟨FP.fin 0, FP.fin 0⟩ ⟨FP.fin 3, FP.fin 4⟩
        = FP.fin 5
      ∧ Binary32.Vector2D.Distance Binary32.Mathf.Sqrt ⟨FP.fin 1, FP.fin 2⟩
          ⟨FP.fin 4, FP.fin 6⟩
        = Binary32.Vector2D.GetMagnitude Binary32.Mathf.Sqrt
          ((Binary32.Vector2D.mk (FP.fin 4) (FP.fin 6)).operator_sub ⟨FP.fin 1, FP.fin 2⟩) :=
  ⟨(C16_Distance_amended Binary32.Mathf.Sqrt ⟨FP.fin 0, FP.fin 0⟩ ⟨FP.fin 3, FP.fin 4⟩).2.2.2
      (by decide!),
    (C16_Distance_amended Binary32.Mathf.Sqrt ⟨FP.fin 1, FP.fin 2⟩ ⟨FP.fin 4, FP.fin 6⟩).2.2.1
      (by decide!) (by decide!)⟩

/-! ## Normalization (binary32) -/

namespace Binary32

end Binary32

namespace Binary32

end Binary32

namespace Binary32

end Binary32

